import Mathlib

/-!
# dockenv: configuration reconciliation

A shallow embedding of the add, remove and init commands of dockenv
(`cmd/add.go`, `cmd/remove.go`, `cmd/init.go`), of the service catalog and the
profiles (`internal/services/services.go`), of the configuration record
(`internal/config/config.go`), of compose generation
(`internal/templates/templates.go`), of the Docker check
(`internal/docker/docker.go`) and of the merge of the environment file, which the
spec describes in section 4.4.

Conventions of the embedding:

* a Go `map[string]T` is a partial function `String → Option T`; a lookup
  `m[k]` of a missing key yields the zero value of `T`, written `GoMap.getD`;
* a Go map literal that the code ranges over (the `EnvVars` of a catalog
  entry, the catalog itself) is the list of its entries in source order; its
  keys are pairwise distinct, so the loops over it do not depend on the order;
* a command is a function from the stored configuration and the command line
  to the configuration stored afterwards, the error returned and the lists the
  command reports; file-system failures of load and save are not modelled;
* an error value keeps the error kind and the name it mentions, not the text;
* the compose file is the string written to it; an embedded template is the list
  of its pieces (literal text, the action on `Port`, the action on `DataPath`),
  and the reader of template files that `GenerateDockerCompose` calls is a
  parameter.
-/

namespace Dockenv

/-! ## Go maps -/

/-- Go map with string keys: a partial function. -/
abbrev GoMap (α : Type) := String → Option α

namespace GoMap

/-- The map made by `make(map[string]T)`. -/
def empty {α : Type} : GoMap α := fun _ => none

/-- Assignment `m[k] = v`. -/
def set {α : Type} (m : GoMap α) (k : String) (v : α) : GoMap α :=
  fun j => if j = k then some v else m j

/-- Builtin `delete(m, k)`. -/
def delete {α : Type} (m : GoMap α) (k : String) : GoMap α :=
  fun j => if j = k then none else m j

/-- Lookup `m[k]` with the zero value `zero` for a missing key. -/
def getD {α : Type} (m : GoMap α) (k : String) (zero : α) : α :=
  (m k).getD zero

end GoMap

/-! ## Service catalog (`internal/services/services.go`) -/

/-- Catalog entry, `services.Service`. -/
structure Service where
  Name : String
  DisplayName : String
  Description : String
  DefaultPort : Int
  Template : String
  Volumes : List String
  EnvVars : List (String × String)
  deriving DecidableEq, Repr

/-- Zero value of `Service`, what `service, _ := GetService(name)` leaves in
`service` when the name is unknown. -/
def Service.zero : Service :=
  ⟨"", "", "", 0, "", [], []⟩

/-- The map `services.AvailableServices`, entries in source order. -/
def AvailableServices : List (String × Service) :=
  [ ("mysql",
      ⟨"mysql", "MySQL", "MySQL Database Server", 3306, "mysql.yaml", ["mysql_data"],
        [ ("DB_CONNECTION", "mysql"), ("DB_HOST", "127.0.0.1"), ("DB_PORT", "3306"),
          ("DB_DATABASE", "dockenv"), ("DB_USERNAME", "dockenv"), ("DB_PASSWORD", "password") ]⟩),
    ("postgres",
      ⟨"postgres", "PostgreSQL", "PostgreSQL Database Server", 5432, "postgres.yaml",
        ["postgres_data"],
        [ ("DB_CONNECTION", "pgsql"), ("DB_HOST", "127.0.0.1"), ("DB_PORT", "5432"),
          ("DB_DATABASE", "dockenv"), ("DB_USERNAME", "dockenv"), ("DB_PASSWORD", "password") ]⟩),
    ("redis",
      ⟨"redis", "Redis", "Redis In-Memory Data Store", 6379, "redis.yaml", ["redis_data"],
        [ ("REDIS_HOST", "127.0.0.1"), ("REDIS_PORT", "6379"), ("REDIS_PASSWORD", "") ]⟩),
    ("mongodb",
      ⟨"mongodb", "MongoDB", "MongoDB NoSQL Database", 27017, "mongodb.yaml", ["mongodb_data"],
        [ ("MONGO_HOST", "127.0.0.1"), ("MONGO_PORT", "27017"), ("MONGO_DATABASE", "dockenv"),
          ("MONGO_USERNAME", "dockenv"), ("MONGO_PASSWORD", "password") ]⟩),
    ("kafka",
      ⟨"kafka", "Apache Kafka", "Apache Kafka Message Broker", 9092, "kafka.yaml",
        ["kafka_data", "zookeeper_data"],
        [ ("KAFKA_HOST", "127.0.0.1"), ("KAFKA_PORT", "9092") ]⟩),
    ("elasticsearch",
      ⟨"elasticsearch", "Elasticsearch", "Elasticsearch Search Engine", 9200,
        "elasticsearch.yaml", ["elasticsearch_data"],
        [ ("ELASTICSEARCH_HOST", "127.0.0.1"), ("ELASTICSEARCH_PORT", "9200") ]⟩),
    ("rabbitmq",
      ⟨"rabbitmq", "RabbitMQ", "RabbitMQ Message Broker", 5672, "rabbitmq.yaml",
        ["rabbitmq_data"],
        [ ("RABBITMQ_HOST", "127.0.0.1"), ("RABBITMQ_PORT", "5672"),
          ("RABBITMQ_USERNAME", "dockenv"), ("RABBITMQ_PASSWORD", "password") ]⟩) ]

/-- Lookup in a Go map literal given as its entry list. -/
def lookupEntry {α : Type} (name : String) : List (String × α) → Option α
  | [] => none
  | (k, v) :: rest => if k = name then some v else lookupEntry name rest

/-- The function `services.GetService`: the entry and whether it exists, as an option. -/
def GetService (name : String) : Option Service :=
  lookupEntry name AvailableServices

/-- Errors returned by the commands: the kind and the name mentioned in the text. -/
inductive CmdError where
  | unknownService (serviceName : String)
  | invalidPortSpec (portSpec : String)
  | invalidPortNumber (portStr : String)
  | serviceNotToAdd (serviceName : String)
  | composeUnknownService (serviceName : String)
  | composeNoTemplate (serviceName : String)
  | composeTemplateFailed (serviceName : String)
  | updateComposeFailed (cause : CmdError)
  | serviceNotSelected (serviceName : String)
  | dockerSetupRequired
  | unknownProfile (profileName : String)
  | noServicesSelected
  | selectionFailed
  | generateComposeFailed (cause : CmdError)
  deriving DecidableEq, Repr

/-- The function `services.ValidateServices`: the error of the first name that is
not a key of the catalog, `none` for the nil error. -/
def ValidateServices : List String → Option CmdError
  | [] => none
  | serviceName :: rest =>
    match GetService serviceName with
    | none => some (CmdError.unknownService serviceName)
    | some _ => ValidateServices rest

/-! ## Configuration (`internal/config/config.go`) -/

/-- The record `config.Config`. -/
structure Config where
  Version : String
  Services : List String
  Ports : GoMap Int
  Env : GoMap String
  Volumes : GoMap String
  DataPath : String

/-! ## Helpers -/

/-- The helper `contains` of `internal/templates/templates.go`. -/
def contains : List String → String → Bool
  | [], _ => false
  | s :: rest, item => if s = item then true else contains rest item

/-- The helper `removeString` of `internal/templates/templates.go`. -/
def removeString (slice : List String) (item : String) : List String :=
  slice.foldl (fun result s => if s ≠ item then result ++ [s] else result) []

/-- Modelled from the spec: `utils.Contains` (package `internal/utils` is not among
the sources). The spec partitions the requested identifiers by set membership
against `cfg.services`. -/
def Contains (slice : List String) (item : String) : Bool :=
  decide (item ∈ slice)

/-- Modelled from the spec: `utils.RemoveString` (package `internal/utils` is not
among the sources). The spec deletes the service from `services` and preserves the
order of the remaining services. -/
def RemoveString (slice : List String) (item : String) : List String :=
  slice.filter (fun s => decide (s ≠ item))

/-- Library function `strings.Split` on lists of characters, for a one-character
separator. -/
def splitChars (sep : Char) : List Char → List (List Char)
  | [] => [[]]
  | c :: cs =>
    if c = sep then [] :: splitChars sep cs
    else
      match splitChars sep cs with
      | [] => [[c]]
      | part :: parts => (c :: part) :: parts

/-- Library function `strings.Split(s, ":")`. -/
def stringsSplitColon (s : String) : List String :=
  (splitChars ':' s.data).map String.mk

/-! ## Compose generation, error part (`internal/templates/templates.go`) -/

/-- Keys of the template table inside `GetEmbeddedTemplate`, in source order. -/
def embeddedTemplateKeys : List String :=
  ["mysql", "postgres", "redis", "mongodb", "kafka", "elasticsearch", "rabbitmq"]

/-- Error returned by the service loop of `GenerateDockerComposeEmbedded`: for the
first service that is not in the catalog or has no embedded template. Failures of
the file system and of the template engine are not modelled. -/
def composeEmbeddedError : List String → Option CmdError
  | [] => none
  | serviceName :: rest =>
    match GetService serviceName with
    | none => some (CmdError.composeUnknownService serviceName)
    | some _ =>
      if serviceName ∈ embeddedTemplateKeys then composeEmbeddedError rest
      else some (CmdError.composeNoTemplate serviceName)

/-! ## The add command (`cmd/add.go`) -/

/-- Loop of lines 54-60 of `runAdd` (and 52-58 of `runRemove`): the requested names
that are in `cfgServices` and those that are not, each in request order. -/
def splitRequested (cfgServices : List String) (args : List String) :
    List String × List String :=
  args.foldl
    (fun acc serviceName =>
      if Contains cfgServices serviceName then (acc.1 ++ [serviceName], acc.2)
      else (acc.1, acc.2 ++ [serviceName]))
    ([], [])

/-- Loop of lines 75-94 of `runAdd`, from the map `customPorts` built so far.
The scanner `sscanfD` stands for `fmt.Sscanf(portStr, "%d", &port)`: the number
read, or `none` when the call returns an error. -/
def parseCustomPorts (sscanfD : String → Option Int) (newServices : List String) :
    List String → GoMap Int → Except CmdError (GoMap Int)
  | [], customPorts => Except.ok customPorts
  | portSpec :: rest, customPorts =>
    match stringsSplitColon portSpec with
    | [serviceName, portStr] =>
      match sscanfD portStr with
      | none => Except.error (CmdError.invalidPortNumber portStr)
      | some port =>
        if Contains newServices serviceName then
          parseCustomPorts sscanfD newServices rest (customPorts.set serviceName port)
        else Except.error (CmdError.serviceNotToAdd serviceName)
    | _ => Except.error (CmdError.invalidPortSpec portSpec)

/-- Loop of lines 110-114 of `runAdd`: a default is written where the lookup of
the key yields the empty string. -/
def mergeEnvDefaults (env : GoMap String) (envVars : List (String × String)) :
    GoMap String :=
  envVars.foldl
    (fun e kv => if e.getD kv.1 "" = "" then e.set kv.1 kv.2 else e)
    env

/-- Body of the loop of lines 97-115 of `runAdd` for one service. -/
def addService (customPorts : GoMap Int) (cfg : Config) (serviceName : String) : Config :=
  let cfg1 : Config := { cfg with Services := cfg.Services ++ [serviceName] }
  let cfg2 : Config :=
    match customPorts serviceName with
    | some customPort => { cfg1 with Ports := cfg1.Ports.set serviceName customPort }
    | none =>
      let service := (GetService serviceName).getD Service.zero
      { cfg1 with Ports := cfg1.Ports.set serviceName service.DefaultPort }
  let service := (GetService serviceName).getD Service.zero
  { cfg2 with Env := mergeEnvDefaults cfg2.Env service.EnvVars }

/-- The add mutation, lines 96-115 of `runAdd`. -/
def addMutation (customPorts : GoMap Int) (cfg : Config) (newServices : List String) :
    Config :=
  newServices.foldl (addService customPorts) cfg

/-- Outcome of `runAdd`: the configuration stored when the command returns, the
error returned, and the two lists the command prints. -/
structure AddResult where
  stored : Config
  err : Option CmdError
  existingServices : List String
  newServices : List String

/-- The command `runAdd` on the stored configuration `cfg`, the arguments `args`
and the values `addPortFlag` of the flag `--port`. -/
def runAdd (sscanfD : String → Option Int) (cfg : Config) (args : List String)
    (addPortFlag : List String) : AddResult :=
  match ValidateServices args with
  | some e => ⟨cfg, some e, [], []⟩
  | none =>
    let existingServices := (splitRequested cfg.Services args).1
    let newServices := (splitRequested cfg.Services args).2
    if newServices.length = 0 then ⟨cfg, none, existingServices, newServices⟩
    else
      match parseCustomPorts sscanfD newServices addPortFlag GoMap.empty with
      | Except.error e => ⟨cfg, some e, existingServices, newServices⟩
      | Except.ok customPorts =>
        let cfg1 := addMutation customPorts cfg newServices
        match composeEmbeddedError cfg1.Services with
        | some e => ⟨cfg1, some (CmdError.updateComposeFailed e), existingServices, newServices⟩
        | none => ⟨cfg1, none, existingServices, newServices⟩

/-! ## The remove command (`cmd/remove.go`) -/

/-- Body of the loop of lines 85-96 of `runRemove` for one service. -/
def removeService (cfg : Config) (serviceName : String) : Config :=
  let cfg1 : Config :=
    { cfg with
      Services := RemoveString cfg.Services serviceName
      Ports := cfg.Ports.delete serviceName }
  match GetService serviceName with
  | some service =>
    { cfg1 with Env := service.EnvVars.foldl (fun e kv => e.delete kv.1) cfg1.Env }
  | none => cfg1

/-- The remove mutation, lines 84-96 of `runRemove`. -/
def removeMutation (cfg : Config) (servicesToRemove : List String) : Config :=
  servicesToRemove.foldl removeService cfg

/-- Outcome of `runRemove`: the configuration stored when the command returns, the
error returned, and the two lists the command prints. -/
structure RemoveResult where
  stored : Config
  err : Option CmdError
  servicesToRemove : List String
  missingServices : List String

/-- The command `runRemove` on the stored configuration `cfg` and the arguments
`args`; `removeForceFlag` is the flag `--force` and `promptConfirm` the answer
that `utils.PromptConfirm` returns when it is asked. -/
def runRemove (cfg : Config) (args : List String) (removeForceFlag : Bool)
    (promptConfirm : Bool) : RemoveResult :=
  let servicesToRemove := (splitRequested cfg.Services args).1
  let missingServices := (splitRequested cfg.Services args).2
  if servicesToRemove.length = 0 then ⟨cfg, none, servicesToRemove, missingServices⟩
  else if !removeForceFlag && !promptConfirm then
    ⟨cfg, none, servicesToRemove, missingServices⟩
  else
    let cfg1 := removeMutation cfg servicesToRemove
    match composeEmbeddedError cfg1.Services with
    | some e =>
      ⟨cfg1, some (CmdError.updateComposeFailed e), servicesToRemove, missingServices⟩
    | none => ⟨cfg1, none, servicesToRemove, missingServices⟩

/-- Scanner instance for concrete runs: the value of `fmt.Sscanf(s, "%d", &port)`
on a text that starts with an optional sign and at least one decimal digit (what
follows the digits is left unread, a number outside the 64-bit range is an error).
Texts that start otherwise, among them those with leading blanks, are not covered
by this instance and are an error here. -/
def scanDecimal (s : String) : Option Int :=
  let digitsOf (cs : List Char) : List Char := cs.takeWhile Char.isDigit
  let valueOf (ds : List Char) : Nat := ds.foldl (fun n c => 10 * n + (c.toNat - 48)) 0
  let checked (cs : List Char) (negative : Bool) : Option Int :=
    if digitsOf cs = [] then none
    else if negative then
      if valueOf (digitsOf cs) ≤ 9223372036854775808 then
        some (-(valueOf (digitsOf cs) : Int))
      else none
    else if valueOf (digitsOf cs) ≤ 9223372036854775807 then
      some (valueOf (digitsOf cs) : Int)
    else none
  match s.data with
  | '-' :: cs => checked cs true
  | '+' :: cs => checked cs false
  | cs => checked cs false

/-- An empty configuration: no services, empty ports, env and volumes, version
`1.0` (what `TestLoadConfig` expects when no file exists), data path `dataPath`. -/
def emptyConfig (dataPath : String) : Config :=
  ⟨"1.0", [], GoMap.empty, GoMap.empty, GoMap.empty, dataPath⟩

/-- Port that the loop of lines 100-106 of `runAdd` stores for a new service: the
custom port when `customPorts` has the service, else the default port of the
catalog entry. -/
def assignedPort (customPorts : GoMap Int) (serviceName : String) : Int :=
  match customPorts serviceName with
  | some customPort => customPort
  | none => ((GetService serviceName).getD Service.zero).DefaultPort

/-- Default environment of a service name: the `EnvVars` of its catalog entry, none
for an unknown name. -/
def defaultEnv (serviceName : String) : List (String × String) :=
  ((GetService serviceName).getD Service.zero).EnvVars

/-- The invariant of the data model: every key of `Ports` is a member of `Services`. -/
def PortsWithinServices (cfg : Config) : Prop :=
  ∀ k, cfg.Ports k ≠ none → k ∈ cfg.Services

/-- A stored configuration with MySQL selected on its default port, for concrete runs. -/
def mysqlOnlyConfig : Config :=
  { emptyConfig "/var/lib/dockenv" with
    Services := ["mysql"]
    Ports := GoMap.empty.set "mysql" 3306 }

/-- A stored configuration whose environment has the key `DB_HOST` with the empty
string as value, as a configuration file with the line `DB_HOST: ""` under `env`
loads. -/
def emptyHostConfig : Config :=
  { emptyConfig "/var/lib/dockenv" with Env := GoMap.empty.set "DB_HOST" "" }

/-- A stored configuration whose environment overrides `DB_HOST`. -/
def customHostConfig : Config :=
  { emptyConfig "/var/lib/dockenv" with Env := GoMap.empty.set "DB_HOST" "db.internal" }

/-! ## Compose generation (`internal/templates/templates.go`) -/

/-- The record `templates.TemplateData`. -/
structure TemplateData where
  Port : Int
  DataPath : String
  Env : GoMap String

/-- A piece of an embedded template, as `text/template` parses the text: literal
text, the action that prints the field `Port`, the action that prints the field
`DataPath`. The embedded templates have no other action. -/
inductive TemplatePart where
  | text (s : String)
  | port
  | dataPath
  deriving DecidableEq, Repr

/-- Source text of a template piece. -/
def TemplatePart.source : TemplatePart → String
  | TemplatePart.text s => s
  | TemplatePart.port => "\x7b\x7b.Port\x7d\x7d"
  | TemplatePart.dataPath => "\x7b\x7b.DataPath\x7d\x7d"

/-- Source text of a template, the string that `GetEmbeddedTemplate` returns. -/
def templateText (parts : List TemplatePart) : String :=
  String.join (parts.map TemplatePart.source)

/-- The entry `mysql` of the template table of `GetEmbeddedTemplate`, one source line on
each row. -/
def mysqlTemplate : List TemplatePart :=
  [ TemplatePart.text "  mysql:\n",
    TemplatePart.text "    image: mysql:8.0\n",
    TemplatePart.text "    container_name: dockenv-mysql\n",
    TemplatePart.text "    restart: unless-stopped\n",
    TemplatePart.text "    environment:\n",
    TemplatePart.text "      MYSQL_ROOT_PASSWORD: root\n",
    TemplatePart.text "      MYSQL_DATABASE: dockenv\n",
    TemplatePart.text "      MYSQL_USER: dockenv\n",
    TemplatePart.text "      MYSQL_PASSWORD: password\n",
    TemplatePart.text "    ports:\n",
    TemplatePart.text "      - \"", TemplatePart.port, TemplatePart.text ":3306\"\n",
    TemplatePart.text "    volumes:\n",
    TemplatePart.text "      - ", TemplatePart.dataPath, TemplatePart.text "/mysql:/var/lib/mysql\n",
    TemplatePart.text "    healthcheck:\n",
    TemplatePart.text "      test: [\"CMD\", \"mysqladmin\", \"ping\", \"-h\", \"localhost\"]\n",
    TemplatePart.text "      timeout: 20s\n",
    TemplatePart.text "      retries: 10" ]

/-- The entry `postgres` of the template table of `GetEmbeddedTemplate`, one source line on
each row. -/
def postgresTemplate : List TemplatePart :=
  [ TemplatePart.text "  postgres:\n",
    TemplatePart.text "    image: postgres:15\n",
    TemplatePart.text "    container_name: dockenv-postgres\n",
    TemplatePart.text "    restart: unless-stopped\n",
    TemplatePart.text "    environment:\n",
    TemplatePart.text "      POSTGRES_DB: dockenv\n",
    TemplatePart.text "      POSTGRES_USER: dockenv\n",
    TemplatePart.text "      POSTGRES_PASSWORD: password\n",
    TemplatePart.text "    ports:\n",
    TemplatePart.text "      - \"", TemplatePart.port, TemplatePart.text ":5432\"\n",
    TemplatePart.text "    volumes:\n",
    TemplatePart.text "      - ", TemplatePart.dataPath, TemplatePart.text "/postgres:/var/lib/postgresql/data\n",
    TemplatePart.text "    healthcheck:\n",
    TemplatePart.text "      test: [\"CMD-SHELL\", \"pg_isready -U dockenv\"]\n",
    TemplatePart.text "      interval: 30s\n",
    TemplatePart.text "      timeout: 10s\n",
    TemplatePart.text "      retries: 5" ]

/-- The entry `redis` of the template table of `GetEmbeddedTemplate`, one source line on
each row. -/
def redisTemplate : List TemplatePart :=
  [ TemplatePart.text "  redis:\n",
    TemplatePart.text "    image: redis:7-alpine\n",
    TemplatePart.text "    container_name: dockenv-redis\n",
    TemplatePart.text "    restart: unless-stopped\n",
    TemplatePart.text "    ports:\n",
    TemplatePart.text "      - \"", TemplatePart.port, TemplatePart.text ":6379\"\n",
    TemplatePart.text "    volumes:\n",
    TemplatePart.text "      - ", TemplatePart.dataPath, TemplatePart.text "/redis:/data\n",
    TemplatePart.text "    healthcheck:\n",
    TemplatePart.text "      test: [\"CMD\", \"redis-cli\", \"ping\"]\n",
    TemplatePart.text "      interval: 30s\n",
    TemplatePart.text "      timeout: 10s\n",
    TemplatePart.text "      retries: 5" ]

/-- The entry `mongodb` of the template table of `GetEmbeddedTemplate`, one source line on
each row. -/
def mongodbTemplate : List TemplatePart :=
  [ TemplatePart.text "  mongodb:\n",
    TemplatePart.text "    image: mongo:7\n",
    TemplatePart.text "    container_name: dockenv-mongodb\n",
    TemplatePart.text "    restart: unless-stopped\n",
    TemplatePart.text "    environment:\n",
    TemplatePart.text "      MONGO_INITDB_ROOT_USERNAME: dockenv\n",
    TemplatePart.text "      MONGO_INITDB_ROOT_PASSWORD: password\n",
    TemplatePart.text "      MONGO_INITDB_DATABASE: dockenv\n",
    TemplatePart.text "    ports:\n",
    TemplatePart.text "      - \"", TemplatePart.port, TemplatePart.text ":27017\"\n",
    TemplatePart.text "    volumes:\n",
    TemplatePart.text "      - ", TemplatePart.dataPath, TemplatePart.text "/mongodb:/data/db\n",
    TemplatePart.text "    healthcheck:\n",
    TemplatePart.text "      test: [\"CMD\", \"mongo\", \"--eval\", \"db.adminCommand(\x27ping\x27)\"]\n",
    TemplatePart.text "      interval: 30s\n",
    TemplatePart.text "      timeout: 10s\n",
    TemplatePart.text "      retries: 5" ]

/-- The entry `kafka` of the template table of `GetEmbeddedTemplate`, one source line on
each row. -/
def kafkaTemplate : List TemplatePart :=
  [ TemplatePart.text "  zookeeper:\n",
    TemplatePart.text "    image: confluentinc/cp-zookeeper:latest\n",
    TemplatePart.text "    container_name: dockenv-zookeeper\n",
    TemplatePart.text "    restart: unless-stopped\n",
    TemplatePart.text "    environment:\n",
    TemplatePart.text "      ZOOKEEPER_CLIENT_PORT: 2181\n",
    TemplatePart.text "      ZOOKEEPER_TICK_TIME: 2000\n",
    TemplatePart.text "    volumes:\n",
    TemplatePart.text "      - ", TemplatePart.dataPath, TemplatePart.text "/zookeeper:/var/lib/zookeeper/data\n",
    TemplatePart.text "\n",
    TemplatePart.text "  kafka:\n",
    TemplatePart.text "    image: confluentinc/cp-kafka:latest\n",
    TemplatePart.text "    container_name: dockenv-kafka\n",
    TemplatePart.text "    restart: unless-stopped\n",
    TemplatePart.text "    depends_on:\n",
    TemplatePart.text "      - zookeeper\n",
    TemplatePart.text "    environment:\n",
    TemplatePart.text "      KAFKA_BROKER_ID: 1\n",
    TemplatePart.text "      KAFKA_ZOOKEEPER_CONNECT: zookeeper:2181\n",
    TemplatePart.text "      KAFKA_ADVERTISED_LISTENERS: PLAINTEXT://localhost:", TemplatePart.port, TemplatePart.text "\n",
    TemplatePart.text "      KAFKA_OFFSETS_TOPIC_REPLICATION_FACTOR: 1\n",
    TemplatePart.text "    ports:\n",
    TemplatePart.text "      - \"", TemplatePart.port, TemplatePart.text ":9092\"\n",
    TemplatePart.text "    volumes:\n",
    TemplatePart.text "      - ", TemplatePart.dataPath, TemplatePart.text "/kafka:/var/lib/kafka/data" ]

/-- The entry `elasticsearch` of the template table of `GetEmbeddedTemplate`, one source line on
each row. -/
def elasticsearchTemplate : List TemplatePart :=
  [ TemplatePart.text "  elasticsearch:\n",
    TemplatePart.text "    image: docker.elastic.co/elasticsearch/elasticsearch:8.11.0\n",
    TemplatePart.text "    container_name: dockenv-elasticsearch\n",
    TemplatePart.text "    restart: unless-stopped\n",
    TemplatePart.text "    environment:\n",
    TemplatePart.text "      - discovery.type=single-node\n",
    TemplatePart.text "      - xpack.security.enabled=false\n",
    TemplatePart.text "      - \"ES_JAVA_OPTS=-Xms512m -Xmx512m\"\n",
    TemplatePart.text "    ports:\n",
    TemplatePart.text "      - \"", TemplatePart.port, TemplatePart.text ":9200\"\n",
    TemplatePart.text "    volumes:\n",
    TemplatePart.text "      - ", TemplatePart.dataPath, TemplatePart.text "/elasticsearch:/usr/share/elasticsearch/data\n",
    TemplatePart.text "    healthcheck:\n",
    TemplatePart.text "      test: [\"CMD-SHELL\", \"curl -f http://localhost:9200/_cluster/health || exit 1\"]\n",
    TemplatePart.text "      interval: 30s\n",
    TemplatePart.text "      timeout: 10s\n",
    TemplatePart.text "      retries: 5" ]

/-- The entry `rabbitmq` of the template table of `GetEmbeddedTemplate`, one source line on
each row. -/
def rabbitmqTemplate : List TemplatePart :=
  [ TemplatePart.text "  rabbitmq:\n",
    TemplatePart.text "    image: rabbitmq:3-management\n",
    TemplatePart.text "    container_name: dockenv-rabbitmq\n",
    TemplatePart.text "    restart: unless-stopped\n",
    TemplatePart.text "    environment:\n",
    TemplatePart.text "      RABBITMQ_DEFAULT_USER: dockenv\n",
    TemplatePart.text "      RABBITMQ_DEFAULT_PASS: password\n",
    TemplatePart.text "    ports:\n",
    TemplatePart.text "      - \"", TemplatePart.port, TemplatePart.text ":5672\"\n",
    TemplatePart.text "      - \"15672:15672\"\n",
    TemplatePart.text "    volumes:\n",
    TemplatePart.text "      - ", TemplatePart.dataPath, TemplatePart.text "/rabbitmq:/var/lib/rabbitmq\n",
    TemplatePart.text "    healthcheck:\n",
    TemplatePart.text "      test: [\"CMD\", \"rabbitmq-diagnostics\", \"ping\"]\n",
    TemplatePart.text "      interval: 30s\n",
    TemplatePart.text "      timeout: 10s\n",
    TemplatePart.text "      retries: 5" ]

/-- The template table of `GetEmbeddedTemplate`, entries in source order. -/
def embeddedTemplates : List (String × List TemplatePart) :=
  [ ("mysql", mysqlTemplate), ("postgres", postgresTemplate), ("redis", redisTemplate),
    ("mongodb", mongodbTemplate), ("kafka", kafkaTemplate),
    ("elasticsearch", elasticsearchTemplate), ("rabbitmq", rabbitmqTemplate) ]

/-- The function `GetEmbeddedTemplate`: the template of the service, `none` for the
error `no embedded template found`. -/
def GetEmbeddedTemplate (serviceName : String) : Option (List TemplatePart) :=
  lookupEntry serviceName embeddedTemplates

/-- Text that executing one template piece on `data` writes: an integer field is
printed in decimal, a string field as it is. -/
def executePart (data : TemplateData) : TemplatePart → String
  | TemplatePart.text s => s
  | TemplatePart.port => toString data.Port
  | TemplatePart.dataPath => data.DataPath

/-- The call `tmpl.Execute(file, data)`: the content of `file` after the pieces of
the template are written to it in order. -/
def tmplExecute (file : String) (parts : List TemplatePart) (data : TemplateData) : String :=
  parts.foldl (fun out part => out ++ executePart data part) file

/-- The header that `GenerateDockerCompose` and `GenerateDockerComposeEmbedded`
write, three calls of `Fprintln`. -/
def composeHeader : String :=
  "version: \x273.8\x27\n" ++ "\n" ++ "services:\n"

/-- Service loop of `GenerateDockerComposeEmbedded`, lines 254-286: the content of
the file and the error returned, from the content `file` written so far. -/
def embeddedServiceLoop (cfg : Config) : List String → String → String × Option CmdError
  | [], file => (file, none)
  | serviceName :: rest, file =>
    match GetService serviceName with
    | none => (file, some (CmdError.composeUnknownService serviceName))
    | some service =>
      let port := cfg.Ports.getD serviceName 0
      let port := if port = 0 then service.DefaultPort else port
      let templateData : TemplateData := ⟨port, cfg.DataPath, cfg.Env⟩
      match GetEmbeddedTemplate serviceName with
      | none => (file, some (CmdError.composeNoTemplate serviceName))
      | some templateStr =>
        embeddedServiceLoop cfg rest (tmplExecute file templateStr templateData ++ "\n")

/-- Body of the inner loop of lines 293-298: the file and the map `volumes` after
one volume name. -/
def writeVolumeOnce (state : String × GoMap Bool) (volume : String) : String × GoMap Bool :=
  if state.2.getD volume false then state
  else (state.1 ++ "  " ++ volume ++ ":\n", state.2.set volume true)

/-- Body of the outer loop of lines 291-299 for one service. -/
def writeServiceVolumes (state : String × GoMap Bool) (serviceName : String) :
    String × GoMap Bool :=
  ((GetService serviceName).getD Service.zero).Volumes.foldl writeVolumeOnce state

/-- The function `GenerateDockerComposeEmbedded`: the content of the compose file
when it returns and the error returned. The file is taken to be creatable. -/
def GenerateDockerComposeEmbedded (cfg : Config) : String × Option CmdError :=
  match embeddedServiceLoop cfg cfg.Services composeHeader with
  | (file, some e) => (file, some e)
  | (file, none) =>
    ((cfg.Services.foldl writeServiceVolumes (file ++ "volumes:\n", GoMap.empty)).1, none)

/-- Service loop of `GenerateDockerCompose`, lines 41-63. The parameter
`generateServiceTemplate` stands for the function of that name, which reads the
file `templates/<templateName>`, parses it and executes it on the data: the text it
writes, or `none` when it returns an error. -/
def fileServiceLoop (generateServiceTemplate : String → TemplateData → Option String)
    (cfg : Config) : List String → String → String × Option CmdError
  | [], file => (file, none)
  | serviceName :: rest, file =>
    match GetService serviceName with
    | none => (file, some (CmdError.composeUnknownService serviceName))
    | some service =>
      let port := cfg.Ports.getD serviceName 0
      let port := if port = 0 then service.DefaultPort else port
      let templateData : TemplateData := ⟨port, cfg.DataPath, cfg.Env⟩
      match generateServiceTemplate service.Template templateData with
      | none => (file, some (CmdError.composeTemplateFailed serviceName))
      | some written =>
        fileServiceLoop generateServiceTemplate cfg rest (file ++ written ++ "\n")

/-- The function `GenerateDockerCompose`: the content of the compose file when it
returns and the error returned. The file is taken to be creatable. -/
def GenerateDockerCompose (generateServiceTemplate : String → TemplateData → Option String)
    (cfg : Config) : String × Option CmdError :=
  match fileServiceLoop generateServiceTemplate cfg cfg.Services composeHeader with
  | (file, some e) => (file, some e)
  | (file, none) =>
    (cfg.Services.foldl
      (fun out serviceName =>
        ((GetService serviceName).getD Service.zero).Volumes.foldl
          (fun out volume => out ++ "  " ++ volume ++ ":\n") out)
      (file ++ "volumes:\n"), none)

/-- Body of the loop of lines 306-326 of `UpdateDockerCompose` for one service. -/
def updateAddService (cfg : Config) (serviceName : String) : Config :=
  if contains cfg.Services serviceName then cfg
  else
    let cfg1 : Config := { cfg with Services := cfg.Services ++ [serviceName] }
    let cfg2 : Config :=
      if cfg1.Ports.getD serviceName 0 = 0 then
        match GetService serviceName with
        | some service => { cfg1 with Ports := cfg1.Ports.set serviceName service.DefaultPort }
        | none => cfg1
      else cfg1
    match GetService serviceName with
    | some service => { cfg2 with Env := mergeEnvDefaults cfg2.Env service.EnvVars }
    | none => cfg2

/-- Body of the loop of lines 329-339 of `UpdateDockerCompose` for one service. -/
def updateRemoveService (cfg : Config) (serviceName : String) : Config :=
  let cfg1 : Config :=
    { cfg with
      Services := removeString cfg.Services serviceName
      Ports := cfg.Ports.delete serviceName }
  match GetService serviceName with
  | some service =>
    { cfg1 with Env := service.EnvVars.foldl (fun e kv => e.delete kv.1) cfg1.Env }
  | none => cfg1

/-- Outcome of `UpdateDockerCompose`: the configuration as the caller finds it
afterwards, the content of the compose file and the error returned. -/
structure UpdateResult where
  cfg : Config
  file : String
  err : Option CmdError

/-- The function `UpdateDockerCompose`. -/
def UpdateDockerCompose (cfg : Config) (servicesToAdd servicesToRemove : List String) :
    UpdateResult :=
  let cfg1 := servicesToAdd.foldl updateAddService cfg
  let cfg2 := servicesToRemove.foldl updateRemoveService cfg1
  ⟨cfg2, (GenerateDockerComposeEmbedded cfg2).1, (GenerateDockerComposeEmbedded cfg2).2⟩

/-- The function `services.GetServiceNames`: the keys of the catalog (in the order
of the source; the order in which Go ranges over the map is not fixed). -/
def GetServiceNames : List String :=
  AvailableServices.map Prod.fst

/-- Keys of the default environment of a service name. -/
def defaultEnvKeys (serviceName : String) : List String :=
  (defaultEnv serviceName).map Prod.fst

/-- The configuration that `dockenv add mysql postgres` stores from the empty
configuration. -/
def mysqlPostgresConfig : Config :=
  (runAdd scanDecimal (emptyConfig "/var/lib/dockenv") ["mysql", "postgres"] []).stored

/-- The configuration that `dockenv add mysql postgres redis` stores from the empty
configuration. -/
def threeServiceConfig : Config :=
  (runAdd scanDecimal (emptyConfig "/var/lib/dockenv") ["mysql", "postgres", "redis"] []).stored

/-- Library function `strings.Contains`: `substr` occurs within `s`. -/
def stringsContains (s substr : String) : Prop :=
  substr.data <:+: s.data

instance stringsContainsDecidable (s substr : String) : Decidable (stringsContains s substr) :=
  inferInstanceAs (Decidable (substr.data <:+: s.data))

/-- Whether the literal text of a template has the row `line`, closed by a line
break, at the start of a line; `atLineStart` tells whether the text written before
the pieces ends a line. -/
def declaresLine (line : String) : Bool → List TemplatePart → Bool
  | _, [] => false
  | atLineStart, TemplatePart.text t :: rest =>
    (atLineStart && decide (t = line ++ "\n"))
      || declaresLine line (decide (t.data.getLast? = some '\n')) rest
  | _, _ :: rest => declaresLine line false rest

/-- Volume names of the services in the order in which the loops of lines 291-293
of `GenerateDockerComposeEmbedded` meet them. -/
def configuredVolumes (services : List String) : List String :=
  services.flatMap (fun serviceName => ((GetService serviceName).getD Service.zero).Volumes)

/-- The duplicate-free union in order of first occurrence, in the words of the spec:
a name is kept where it occurs first and dropped wherever it occurs again. -/
def firstOccurrences : List String → List String
  | [] => []
  | v :: rest => v :: (firstOccurrences rest).filter (fun w => decide (w ≠ v))

/-- One entry of the volumes section, as `Fprintf(file, "  %s:\n", volume)` writes it. -/
def volumeEntry (volume : String) : String :=
  "  " ++ volume ++ ":\n"

/-- The configuration of `TestGenerateDockerCompose`: MySQL and Redis on their
default ports. -/
def mysqlRedisConfig : Config :=
  { emptyConfig "/var/lib/dockenv" with
    Services := ["mysql", "redis"]
    Ports := (GoMap.empty.set "mysql" 3306).set "redis" 6379
    Env := GoMap.empty.set "DB_HOST" "127.0.0.1"
    Volumes := GoMap.empty.set "mysql_data" "/data/mysql" }

/-- A stale configuration: MySQL followed by a name that is not in the catalog. -/
def staleConfig : Config :=
  { mysqlOnlyConfig with Services := ["mysql", "invalid_service"] }

/-- A working directory without the directory `templates`: every call of
`generateServiceTemplate` fails on reading the file. -/
def noTemplateFiles : String → TemplateData → Option String :=
  fun _ _ => none

/-- A working directory with a directory `templates` in which every file holds the
one line `image: placeholder`. -/
def placeholderTemplateFiles : String → TemplateData → Option String :=
  fun _ _ => some "    image: placeholder"

/-- A configuration whose services list repeats Kafka. -/
def repeatedKafkaConfig : Config :=
  { emptyConfig "/var/lib/dockenv" with Services := ["kafka", "mysql", "kafka"] }

/-! ## Profiles (`internal/services/services.go`) -/

/-- The map `services.Profiles`, entries in source order. -/
def Profiles : List (String × List String) :=
  [ ("laravel", ["mysql", "redis"]),
    ("node", ["postgres", "redis"]),
    ("django", ["postgres", "redis"]),
    ("rails", ["postgres", "redis"]),
    ("spring", ["mysql", "kafka"]),
    ("full", ["mysql", "postgres", "redis", "mongodb", "kafka"]) ]

/-- The function `services.GetProfileServices`: the list and whether the profile
exists, as an option. -/
def GetProfileServices (profileName : String) : Option (List String) :=
  lookupEntry profileName Profiles

/-- The function `services.GetProfileNames`, in the order of the source. -/
def GetProfileNames : List String :=
  Profiles.map Prod.fst

/-! ## Docker check (`internal/docker/docker.go`) -/

/-- The record `docker.DockerInfo`. -/
structure DockerInfo where
  DockerInstalled : Bool
  DockerComposeInstalled : Bool
  DockerVersion : String
  ComposeVersion : String
  DockerRunning : Bool
  deriving DecidableEq, Repr

/-- The method `IsReady`. -/
def DockerInfo.IsReady (d : DockerInfo) : Bool :=
  d.DockerInstalled && d.DockerComposeInstalled && d.DockerRunning

/-- The text that `GetInstallInstructions` returns when nothing is missing. -/
def readyMessage : String :=
  "Docker and Docker Compose are properly installed and running!"

/-- Body of `GetInstallInstructions` on the three flags it reads. -/
def installInstructions (dockerInstalled dockerComposeInstalled dockerRunning : Bool) :
    String :=
  let instructions : List String := []
  let instructions :=
    if !dockerInstalled then
      instructions ++ ["Docker is not installed. Please install Docker from https://docs.docker.com/get-docker/"]
    else if !dockerRunning then
      instructions ++ ["Docker daemon is not running. Please start Docker."]
    else instructions
  let instructions :=
    if !dockerComposeInstalled then
      instructions ++ ["Docker Compose is not installed. Please install Docker Compose from https://docs.docker.com/compose/install/"]
    else instructions
  if instructions.length = 0 then readyMessage
  else String.intercalate "\n" instructions

/-- The method `GetInstallInstructions`. -/
def DockerInfo.GetInstallInstructions (d : DockerInfo) : String :=
  installInstructions d.DockerInstalled d.DockerComposeInstalled d.DockerRunning

/-! ## The init command (`cmd/init.go`) -/

/-- The function `parseCustomPorts` of `cmd/init.go`, lines 242-265 (the loop of
`runAdd` has the name `parseCustomPorts` in this file): the configuration after the
values of the flag `--port` are applied, or the error. The parameter `atoi` stands
for `strconv.Atoi`. -/
def initParseCustomPorts (atoi : String → Option Int) :
    List String → Config → Except CmdError Config
  | [], cfg => Except.ok cfg
  | portSpec :: rest, cfg =>
    match stringsSplitColon portSpec with
    | [serviceName, portStr] =>
      match atoi portStr with
      | none => Except.error (CmdError.invalidPortNumber portStr)
      | some port =>
        if Contains cfg.Services serviceName then
          initParseCustomPorts atoi rest { cfg with Ports := cfg.Ports.set serviceName port }
        else Except.error (CmdError.serviceNotSelected serviceName)
    | _ => Except.error (CmdError.invalidPortSpec portSpec)

/-- Body of the loop of lines 145-157 of `runInit` for one service. -/
def initServiceDefaults (cfg : Config) (serviceName : String) : Config :=
  let service := (GetService serviceName).getD Service.zero
  let cfg1 : Config :=
    if cfg.Ports.getD serviceName 0 = 0 then
      { cfg with Ports := cfg.Ports.set serviceName service.DefaultPort }
    else cfg
  { cfg1 with Env := mergeEnvDefaults cfg1.Env service.EnvVars }

/-- Lines 86-130 of `runInit`: the selected services or the error. The parameter
`interactive` is the outcome of the interactive mode (auto-detection and the
selection prompt), which the command runs when neither flag is given. -/
def initSelectServices (profileFlag : String) (servicesFlag : List String)
    (interactive : Except CmdError (List String)) : Except CmdError (List String) :=
  if profileFlag ≠ "" then
    match GetProfileServices profileFlag with
    | none => Except.error (CmdError.unknownProfile profileFlag)
    | some profileServices => Except.ok profileServices
  else if servicesFlag.length > 0 then
    match ValidateServices servicesFlag with
    | some e => Except.error e
    | none => Except.ok servicesFlag
  else interactive

/-- Outcome of `runInit`: the configuration stored when the command returns and the
error returned. -/
structure InitResult where
  stored : Config
  err : Option CmdError

/-- The command `runInit` on the stored configuration `cfg`. `dockerInfo` is what
`CheckDocker` finds, `continueAnyway` the answer to the prompt asked when Docker is
not ready; the other parameters are the flags and, as in `initSelectServices`, the
outcome of the interactive mode. -/
def runInit (atoi : String → Option Int) (dockerInfo : DockerInfo) (continueAnyway : Bool)
    (cfg : Config) (profileFlag : String) (servicesFlag : List String)
    (interactive : Except CmdError (List String)) (portFlag : List String)
    (dataPathFlag : String) : InitResult :=
  if !dockerInfo.IsReady && !continueAnyway then ⟨cfg, some CmdError.dockerSetupRequired⟩
  else
    let cfg0 : Config := if dataPathFlag ≠ "" then { cfg with DataPath := dataPathFlag } else cfg
    match initSelectServices profileFlag servicesFlag interactive with
    | Except.error e => ⟨cfg, some e⟩
    | Except.ok selectedServices =>
      if selectedServices.length = 0 then ⟨cfg, some CmdError.noServicesSelected⟩
      else
        let cfg1 : Config := { cfg0 with Services := selectedServices }
        match initParseCustomPorts atoi portFlag cfg1 with
        | Except.error e => ⟨cfg, some e⟩
        | Except.ok cfg2 =>
          let cfg3 := selectedServices.foldl initServiceDefaults cfg2
          match (GenerateDockerComposeEmbedded cfg3).2 with
          | some e => ⟨cfg3, some (CmdError.generateComposeFailed e)⟩
          | none => ⟨cfg3, none⟩

/-- Scanner instance for concrete runs of `runInit`: the value of `strconv.Atoi` on
a text made of an optional sign and decimal digits only, in the 64-bit range; every
other text is an error. -/
def atoiDecimal (s : String) : Option Int :=
  let valueOf (ds : List Char) : Nat := ds.foldl (fun n c => 10 * n + (c.toNat - 48)) 0
  let checked (cs : List Char) (negative : Bool) : Option Int :=
    if cs = [] ∨ ¬ cs.all Char.isDigit then none
    else if negative then
      if valueOf cs ≤ 9223372036854775808 then some (-(valueOf cs : Int)) else none
    else if valueOf cs ≤ 9223372036854775807 then some (valueOf cs : Int)
    else none
  match s.data with
  | '-' :: cs => checked cs true
  | '+' :: cs => checked cs false
  | cs => checked cs false

/-- What `CheckDocker` finds when Docker and Docker Compose are installed and the
daemon runs. -/
def dockerReady : DockerInfo :=
  ⟨true, true, "Docker version 24.0.7", "Docker Compose version v2.23.0", true⟩

/-! ## Reference rendering of the compose text -/

/-- Port that the compose text shows for a service, in the words of the claim: the
entry of `cfg.ports` when it is not zero, the default port of the catalog entry
when the entry is absent or zero. -/
def composePort (cfg : Config) (serviceName : String) : Int :=
  if cfg.Ports.getD serviceName 0 = 0 then
    ((GetService serviceName).getD Service.zero).DefaultPort
  else cfg.Ports.getD serviceName 0

/-- The embedded template of a service with the action on `Port` replaced by the
port of `composePort` and the action on `DataPath` by `cfg.dataPath`. -/
def renderedBlock (cfg : Config) (serviceName : String) : String :=
  String.join
    (((GetEmbeddedTemplate serviceName).getD []).map
      (executePart ⟨composePort cfg serviceName, cfg.DataPath, cfg.Env⟩))

/-- The volumes section: the line `volumes:` and one entry for each volume name of
the configured services, in order of first occurrence. -/
def volumesSection (cfg : Config) : String :=
  "volumes:\n"
    ++ String.join ((firstOccurrences (configuredVolumes cfg.Services)).map volumeEntry)

/-- Reference rendering: the header, then for each service in stored order its
rendered block closed by a line break, then the volumes section. -/
def referenceCompose (cfg : Config) : String :=
  "version: \x273.8\x27\n\nservices:\n"
    ++ String.join (cfg.Services.map (fun s => renderedBlock cfg s ++ "\n"))
    ++ volumesSection cfg

/-- Rendering in the words of the claim, with a blank line after each block: the
block is closed by a line break and an empty line follows. -/
def blankLineCompose (cfg : Config) : String :=
  "version: \x273.8\x27\n\nservices:\n"
    ++ String.join (cfg.Services.map (fun s => renderedBlock cfg s ++ "\n" ++ "\n"))
    ++ volumesSection cfg

/-! ## Environment file (spec, section 4.4) -/

/-- Lines of a text: the pieces that the line breaks close; a text that does not
end with a line break has its remainder as last line. -/
def textLines : List Char → List (List Char)
  | [] => []
  | c :: cs =>
    if c = '\n' then [] :: textLines cs
    else
      match textLines cs with
      | [] => [[c]]
      | line :: lines => (c :: line) :: lines

/-- The text of a list of lines, each closed by a line break. -/
def unlines (lines : List (List Char)) : List Char :=
  lines.flatMap (fun line => line ++ ['\n'])

/-- The key of a `key=value` line: the text before the first `=`; a line that
starts with `#` is a comment and a line without `=` is no `key=value` line. -/
def envLineKey (line : List Char) : Option (List Char) :=
  if line.head? = some '#' then none
  else if '=' ∈ line then some (line.takeWhile (fun c => decide (c ≠ '=')))
  else none

/-- One line of the merge: a `key=value` line whose key is in `newVars` gets the
value of `newVars`; every other line is kept as it is. -/
def mergeEnvLine (newVars : List (String × String)) (line : List Char) : List Char :=
  match envLineKey line with
  | some key =>
    match lookupEntry (String.mk key) newVars with
    | some value => key ++ '=' :: value.data
    | none => line
  | none => line

/-- The lines appended by the merge: one line `key=value` for each entry of
`newVars` whose key is the key of no line of the existing text. -/
def appendedEnvLines (newVars : List (String × String)) (lines : List (List Char)) :
    List (List Char) :=
  (newVars.filter (fun kv => decide (some kv.1.data ∉ lines.map envLineKey))).map
    (fun kv => kv.1.data ++ '=' :: kv.2.data)

/-- The lines of the merged text. -/
def mergeEnvLines (lines : List (List Char)) (newVars : List (String × String)) :
    List (List Char) :=
  lines.map (mergeEnvLine newVars) ++ appendedEnvLines newVars lines

/-- Modelled from the spec: `utils.CreateEnvFile` (package `internal/utils` is not
among the sources), as the function `renderEnvFile(existingText, newVars)` of
section 4.4. It parses the existing text line by line, keeps comments and blank
lines, replaces the value of each `key=value` line whose key is in `newVars`, and
appends the entries of `newVars` whose key was not present, each as a new
`key=value` line. The map `newVars` is the list of its entries, keys pairwise
distinct, in the order in which the merge meets them. -/
def renderEnvFile (existingText : String) (newVars : List (String × String)) : String :=
  String.mk (unlines (mergeEnvLines (textLines existingText.data) newVars))

/-- The entries of a variable map that are written as one `key=value` line, the
form in which section 4.4 has the merge write an entry: the key has no line break
and no `=` and does not start with `#`, the value has no line break. -/
def EnvEntryFits (kv : String × String) : Prop :=
  '\n' ∉ kv.1.data ∧ '=' ∉ kv.1.data ∧ kv.1.data.head? ≠ some '#' ∧ '\n' ∉ kv.2.data

/-- The existing file of `TestCreateEnvFile`. -/
def testEnvText : String :=
  "# Database configuration\nDB_HOST=localhost\nDB_PORT=3306\n# Comment to preserve\nEXISTING_VAR=value\n"

/-- The variables of `TestCreateEnvFile`. -/
def testEnvVars : List (String × String) :=
  [("DB_HOST", "127.0.0.1"), ("REDIS_HOST", "127.0.0.1"), ("REDIS_PORT", "6379")]

/-! ## Lemmas on maps and lists -/

@[simp]
theorem GoMap.set_apply {α : Type} (m : GoMap α) (k j : String) (v : α) :
    m.set k v j = if j = k then some v else m j := rfl

@[simp]
theorem GoMap.delete_apply {α : Type} (m : GoMap α) (k j : String) :
    m.delete k j = if j = k then none else m j := rfl

@[simp]
theorem GoMap.empty_apply {α : Type} (j : String) :
    (GoMap.empty : GoMap α) j = none := rfl

theorem Contains_iff (slice : List String) (item : String) :
    Contains slice item = true ↔ item ∈ slice := by
  simp [Contains]

theorem splitRequested_foldl (cfgServices args present absent : List String) :
    args.foldl
      (fun acc serviceName =>
        if Contains cfgServices serviceName then (acc.1 ++ [serviceName], acc.2)
        else (acc.1, acc.2 ++ [serviceName]))
      (present, absent)
    = (present ++ args.filter (fun s => decide (s ∈ cfgServices)),
       absent ++ args.filter (fun s => decide (s ∉ cfgServices))) := by
  induction args generalizing present absent with
  | nil => simp
  | cons a rest ih =>
    rw [List.foldl_cons]
    by_cases h : a ∈ cfgServices
    · have hc : Contains cfgServices a = true := (Contains_iff _ _).2 h
      simp only [hc, if_true]
      rw [ih]
      simp [h]
    · have hc : Contains cfgServices a = false := by
        cases hb : Contains cfgServices a with
        | false => rfl
        | true => exact absurd ((Contains_iff _ _).1 hb) h
      simp only [hc]
      rw [ih]
      simp [h]

theorem splitRequested_eq (cfgServices args : List String) :
    splitRequested cfgServices args
      = (args.filter (fun s => decide (s ∈ cfgServices)),
         args.filter (fun s => decide (s ∉ cfgServices))) := by
  unfold splitRequested
  rw [splitRequested_foldl]
  simp

/-! ## Lemmas on the add mutation -/

theorem addService_Services (cp : GoMap Int) (cfg : Config) (a : String) :
    (addService cp cfg a).Services = cfg.Services ++ [a] := by
  unfold addService
  cases cp a <;> rfl

theorem addService_Ports (cp : GoMap Int) (cfg : Config) (a : String) :
    (addService cp cfg a).Ports = cfg.Ports.set a (assignedPort cp a) := by
  unfold addService assignedPort
  cases cp a <;> rfl

theorem addService_Env (cp : GoMap Int) (cfg : Config) (a : String) :
    (addService cp cfg a).Env = mergeEnvDefaults cfg.Env (defaultEnv a) := by
  unfold addService defaultEnv
  cases cp a <;> rfl

theorem addMutation_cons (cp : GoMap Int) (cfg : Config) (a : String) (l : List String) :
    addMutation cp cfg (a :: l) = addMutation cp (addService cp cfg a) l := rfl

theorem addMutation_Services (cp : GoMap Int) (cfg : Config) (l : List String) :
    (addMutation cp cfg l).Services = cfg.Services ++ l := by
  induction l generalizing cfg with
  | nil => simp [addMutation]
  | cons a rest ih =>
    rw [addMutation_cons, ih, addService_Services]
    simp

theorem addMutation_Ports (cp : GoMap Int) (cfg : Config) (l : List String) (k : String) :
    (addMutation cp cfg l).Ports k
      = if k ∈ l then some (assignedPort cp k) else cfg.Ports k := by
  induction l generalizing cfg with
  | nil => simp [addMutation]
  | cons a rest ih =>
    rw [addMutation_cons, ih, addService_Ports]
    by_cases h1 : k ∈ rest
    · simp [h1]
    · by_cases h2 : k = a
      · subst h2; simp [h1]
      · simp [h1, h2]

theorem mergeEnvDefaults_cons (env : GoMap String) (kv : String × String)
    (rest : List (String × String)) :
    mergeEnvDefaults env (kv :: rest)
      = mergeEnvDefaults (if env.getD kv.1 "" = "" then env.set kv.1 kv.2 else env) rest := rfl

theorem mergeEnvDefaults_keep (env : GoMap String) (vars : List (String × String))
    (k v : String) (hk : env k = some v) (hv : v ≠ "") :
    mergeEnvDefaults env vars k = some v := by
  induction vars generalizing env with
  | nil => simpa [mergeEnvDefaults] using hk
  | cons kv rest ih =>
    rw [mergeEnvDefaults_cons]
    apply ih
    by_cases hw : env.getD kv.1 "" = ""
    · rw [if_pos hw]
      by_cases hkk : k = kv.1
      · subst hkk
        simp [GoMap.getD, hk] at hw
        exact absurd hw hv
      · simp [hkk, hk]
    · rw [if_neg hw]; exact hk

theorem mergeEnvDefaults_cases (env : GoMap String) (vars : List (String × String))
    (k : String) :
    mergeEnvDefaults env vars k = env k
      ∨ ∃ v, (k, v) ∈ vars ∧ mergeEnvDefaults env vars k = some v := by
  induction vars generalizing env with
  | nil => left; rfl
  | cons kv rest ih =>
    rw [mergeEnvDefaults_cons]
    rcases ih (if env.getD kv.1 "" = "" then env.set kv.1 kv.2 else env) with h | ⟨v, hv, h⟩
    · by_cases hw : env.getD kv.1 "" = ""
      · rw [if_pos hw] at h ⊢
        by_cases hkk : k = kv.1
        · right
          refine ⟨kv.2, ?_, ?_⟩
          · subst hkk; simp
          · rw [h]; simp [hkk]
        · left; rw [h]; simp [hkk]
      · rw [if_neg hw] at h ⊢
        left; exact h
    · right
      exact ⟨v, List.mem_cons_of_mem _ hv, h⟩

theorem addMutation_Env_keep (cp : GoMap Int) (cfg : Config) (l : List String)
    (k v : String) (hk : cfg.Env k = some v) (hv : v ≠ "") :
    (addMutation cp cfg l).Env k = some v := by
  induction l generalizing cfg with
  | nil => simpa [addMutation] using hk
  | cons a rest ih =>
    rw [addMutation_cons]
    apply ih
    rw [addService_Env]
    exact mergeEnvDefaults_keep _ _ _ _ hk hv

theorem addMutation_Env_cases (cp : GoMap Int) (cfg : Config) (l : List String)
    (k : String) :
    (addMutation cp cfg l).Env k = cfg.Env k
      ∨ ∃ s ∈ l, ∃ v, (k, v) ∈ defaultEnv s ∧ (addMutation cp cfg l).Env k = some v := by
  induction l generalizing cfg with
  | nil => left; rfl
  | cons a rest ih =>
    rw [addMutation_cons]
    rcases ih (addService cp cfg a) with h | ⟨s, hs, v, hv, h⟩
    · rw [addService_Env] at h
      rcases mergeEnvDefaults_cases cfg.Env (defaultEnv a) k with h2 | ⟨v, hv, h2⟩
      · left; rw [h, h2]
      · right
        exact ⟨a, List.mem_cons_self _ _, v, hv, by rw [h, h2]⟩
    · right
      exact ⟨s, List.mem_cons_of_mem _ hs, v, hv, h⟩

theorem addMutation_frame (cp : GoMap Int) (cfg : Config) (l : List String) :
    (addMutation cp cfg l).Version = cfg.Version
      ∧ (addMutation cp cfg l).Volumes = cfg.Volumes
      ∧ (addMutation cp cfg l).DataPath = cfg.DataPath := by
  induction l generalizing cfg with
  | nil => exact ⟨rfl, rfl, rfl⟩
  | cons a rest ih =>
    rw [addMutation_cons]
    obtain ⟨h1, h2, h3⟩ := ih (addService cp cfg a)
    rw [h1, h2, h3]
    unfold addService
    cases cp a <;> exact ⟨rfl, rfl, rfl⟩

/-! ## Lemmas on the remove mutation -/

theorem removeService_Services (cfg : Config) (a : String) :
    (removeService cfg a).Services = cfg.Services.filter (fun s => decide (s ≠ a)) := by
  unfold removeService RemoveString
  cases GetService a <;> rfl

theorem removeService_Ports (cfg : Config) (a : String) :
    (removeService cfg a).Ports = cfg.Ports.delete a := by
  unfold removeService
  cases GetService a <;> rfl

theorem removeMutation_cons (cfg : Config) (a : String) (l : List String) :
    removeMutation cfg (a :: l) = removeMutation (removeService cfg a) l := rfl

theorem removeMutation_Services (cfg : Config) (l : List String) :
    (removeMutation cfg l).Services = cfg.Services.filter (fun s => decide (s ∉ l)) := by
  induction l generalizing cfg with
  | nil => simp [removeMutation]
  | cons a rest ih =>
    rw [removeMutation_cons, ih, removeService_Services, List.filter_filter]
    apply List.filter_congr
    intro s _
    simp [Bool.and_comm]

theorem removeMutation_Ports (cfg : Config) (l : List String) (k : String) :
    (removeMutation cfg l).Ports k = if k ∈ l then none else cfg.Ports k := by
  induction l generalizing cfg with
  | nil => simp [removeMutation]
  | cons a rest ih =>
    rw [removeMutation_cons, ih, removeService_Ports]
    by_cases h1 : k ∈ rest
    · simp [h1]
    · by_cases h2 : k = a
      · subst h2; simp [h1]
      · simp [h1, h2]

/-! ## Lemmas on the port flags -/

theorem parseCustomPorts_misdirected (sscanfD : String → Option Int)
    (newServices flags : List String) (cp : GoMap Int)
    (h : ∃ portSpec ∈ flags, ∃ serviceName portStr,
      stringsSplitColon portSpec = [serviceName, portStr] ∧ serviceName ∉ newServices) :
    ∃ e, parseCustomPorts sscanfD newServices flags cp = Except.error e := by
  induction flags generalizing cp with
  | nil => simp at h
  | cons spec rest ih =>
    obtain ⟨portSpec, hmem, serviceName, portStr, hsplit, hnot⟩ := h
    unfold parseCustomPorts
    split
    · rename_i sn ps hs
      split
      · exact ⟨_, rfl⟩
      · rename_i port hp
        split
        · rename_i hc
          rcases List.mem_cons.1 hmem with heq | hin
          · subst heq
            rw [hs] at hsplit
            simp at hsplit
            rw [hsplit.1] at hc
            exact absurd ((Contains_iff _ _).1 hc) hnot
          · exact ih _ ⟨portSpec, hin, serviceName, portStr, hsplit, hnot⟩
        · exact ⟨_, rfl⟩
    · exact ⟨_, rfl⟩

theorem ValidateServices_none (args : List String) :
    ValidateServices args = none ↔ ∀ s ∈ args, GetService s ≠ none := by
  induction args with
  | nil => simp [ValidateServices]
  | cons a rest ih =>
    unfold ValidateServices
    cases h : GetService a with
    | none => simp [h]
    | some v => simp [h, ih]

/-! ## Lemmas on the commands -/

theorem runAdd_stored_of_ok (sscanfD : String → Option Int) (cfg : Config)
    (args flags : List String) (cp : GoMap Int)
    (hvalid : ValidateServices args = none)
    (hparse : parseCustomPorts sscanfD (args.filter (fun s => decide (s ∉ cfg.Services)))
      flags GoMap.empty = Except.ok cp) :
    (runAdd sscanfD cfg args flags).stored
      = addMutation cp cfg (args.filter (fun s => decide (s ∉ cfg.Services))) := by
  unfold runAdd
  simp only [hvalid, splitRequested_eq]
  split
  · rename_i h0
    rw [List.length_eq_zero.1 h0]
    rfl
  · rw [hparse]
    dsimp only
    split <;> rfl

theorem runAdd_stored_cases (sscanfD : String → Option Int) (cfg : Config)
    (args flags : List String) :
    (runAdd sscanfD cfg args flags).stored = cfg
      ∨ ∃ cp, (runAdd sscanfD cfg args flags).stored
          = addMutation cp cfg (args.filter (fun s => decide (s ∉ cfg.Services))) := by
  unfold runAdd
  split
  · left; rfl
  · simp only [splitRequested_eq]
    split
    · left; rfl
    · split
      · left; rfl
      · rename_i cp _
        right
        refine ⟨cp, ?_⟩
        dsimp only
        split <;> rfl

theorem runRemove_stored_cases (cfg : Config) (args : List String) (force answer : Bool) :
    (runRemove cfg args force answer).stored = cfg
      ∨ (runRemove cfg args force answer).stored
          = removeMutation cfg (args.filter (fun s => decide (s ∈ cfg.Services))) := by
  unfold runRemove
  simp only [splitRequested_eq]
  split
  · left; rfl
  · split
    · left; rfl
    · right
      dsimp only
      split <;> rfl

theorem runRemove_stored_of_confirmed (cfg : Config) (args : List String)
    (force answer : Bool) (hconfirm : force = true ∨ answer = true) :
    (runRemove cfg args force answer).stored
      = removeMutation cfg (args.filter (fun s => decide (s ∈ cfg.Services))) := by
  unfold runRemove
  simp only [splitRequested_eq]
  split
  · rename_i h0
    rw [List.length_eq_zero.1 h0]
    rfl
  · split
    · rename_i hc
      rcases hconfirm with h | h <;> simp [h] at hc
    · split <;> rfl

theorem PortsWithinServices_addMutation (cp : GoMap Int) (cfg : Config) (l : List String)
    (h : PortsWithinServices cfg) : PortsWithinServices (addMutation cp cfg l) := by
  intro k hk
  rw [addMutation_Ports] at hk
  rw [addMutation_Services]
  by_cases hkl : k ∈ l
  · exact List.mem_append_right _ hkl
  · rw [if_neg hkl] at hk
    exact List.mem_append_left _ (h k hk)

theorem PortsWithinServices_removeMutation (cfg : Config) (l : List String)
    (h : PortsWithinServices cfg) : PortsWithinServices (removeMutation cfg l) := by
  intro k hk
  rw [removeMutation_Ports] at hk
  rw [removeMutation_Services]
  by_cases hkl : k ∈ l
  · rw [if_pos hkl] at hk; exact absurd rfl hk
  · rw [if_neg hkl] at hk
    exact List.mem_filter.2 ⟨h k hk, by simpa using hkl⟩

theorem PortsWithinServices_mysqlOnlyConfig : PortsWithinServices mysqlOnlyConfig := by
  intro k hk
  by_cases h : k = "mysql"
  · subst h; decide
  · exact absurd (by simp [mysqlOnlyConfig, emptyConfig, h]) hk

theorem ValidateServices_first_unknown (args : List String)
    (h : ∃ s ∈ args, GetService s = none) :
    ∃ pre name post, args = pre ++ name :: post
      ∧ (∀ s ∈ pre, GetService s ≠ none) ∧ GetService name = none
      ∧ ValidateServices args = some (CmdError.unknownService name) := by
  induction args with
  | nil => simp at h
  | cons a rest ih =>
    cases ha : GetService a with
    | none =>
      refine ⟨[], a, rest, rfl, by simp, ha, ?_⟩
      simp [ValidateServices, ha]
    | some v =>
      obtain ⟨s, hs, hnone⟩ := h
      have hrest : ∃ s ∈ rest, GetService s = none := by
        rcases List.mem_cons.1 hs with heq | hin
        · subst heq; rw [ha] at hnone; cases hnone
        · exact ⟨s, hin, hnone⟩
      obtain ⟨pre, name, post, hsplit, hpre, hname, hval⟩ := ih hrest
      refine ⟨a :: pre, name, post, by rw [hsplit]; rfl, ?_, hname, ?_⟩
      · intro t ht
        rcases List.mem_cons.1 ht with heq | hin
        · subst heq; rw [ha]; simp
        · exact hpre t hin
      · simp [ValidateServices, ha, hval]

theorem parseCustomPorts_cons_ok (sscanfD : String → Option Int)
    (newServices rest : List String) (spec : String) (cp0 cp : GoMap Int)
    (h : parseCustomPorts sscanfD newServices (spec :: rest) cp0 = Except.ok cp) :
    ∃ serviceName portStr port, stringsSplitColon spec = [serviceName, portStr]
      ∧ sscanfD portStr = some port ∧ serviceName ∈ newServices
      ∧ parseCustomPorts sscanfD newServices rest (cp0.set serviceName port) = Except.ok cp := by
  unfold parseCustomPorts at h
  split at h
  · rename_i sn ps hs
    split at h
    · cases h
    · rename_i port hp
      split at h
      · rename_i hc
        exact ⟨sn, ps, port, hs, hp, (Contains_iff _ _).1 hc, h⟩
      · cases h
  · cases h

theorem parseCustomPorts_unnamed (sscanfD : String → Option Int)
    (newServices flags : List String) (cp0 cp : GoMap Int) (s : String)
    (h : parseCustomPorts sscanfD newServices flags cp0 = Except.ok cp)
    (hno : ∀ t ∈ flags, ∀ portStr, stringsSplitColon t ≠ [s, portStr]) :
    cp s = cp0 s := by
  induction flags generalizing cp0 with
  | nil =>
    unfold parseCustomPorts at h
    cases h
    rfl
  | cons spec rest ih =>
    obtain ⟨sn, ps, port, hs, _, _, hrest⟩ := parseCustomPorts_cons_ok _ _ _ _ _ _ h
    rw [ih _ hrest (fun t ht => hno t (List.mem_cons_of_mem _ ht))]
    have hne : s ≠ sn := by
      intro heq
      subst heq
      exact hno spec (List.mem_cons_self _ _) ps hs
    simp [hne]

theorem parseCustomPorts_last (sscanfD : String → Option Int)
    (newServices pre post : List String) (spec : String) (cp0 cp : GoMap Int)
    (s portStr : String) (port : Int)
    (h : parseCustomPorts sscanfD newServices (pre ++ spec :: post) cp0 = Except.ok cp)
    (hspec : stringsSplitColon spec = [s, portStr]) (hscan : sscanfD portStr = some port)
    (hpost : ∀ t ∈ post, ∀ ps, stringsSplitColon t ≠ [s, ps]) :
    cp s = some port := by
  induction pre generalizing cp0 with
  | nil =>
    obtain ⟨sn, ps, p, hs, hp, _, hrest⟩ := parseCustomPorts_cons_ok _ _ _ _ _ _ h
    rw [hspec] at hs
    simp only [List.cons.injEq, and_true] at hs
    obtain ⟨h1, h2⟩ := hs
    subst h1 h2
    rw [hscan] at hp
    cases hp
    rw [parseCustomPorts_unnamed _ _ _ _ _ _ hrest hpost]
    simp
  | cons t rest ih =>
    obtain ⟨_, _, _, _, _, _, hrest⟩ := parseCustomPorts_cons_ok _ _ _ _ _ _ h
    exact ih _ hrest

theorem runAdd_lists (sscanfD : String → Option Int) (cfg : Config)
    (args flags : List String) (hvalid : ValidateServices args = none) :
    (runAdd sscanfD cfg args flags).existingServices
        = args.filter (fun s => decide (s ∈ cfg.Services))
      ∧ (runAdd sscanfD cfg args flags).newServices
        = args.filter (fun s => decide (s ∉ cfg.Services)) := by
  unfold runAdd
  simp only [hvalid, splitRequested_eq]
  split
  · exact ⟨rfl, rfl⟩
  · split
    · exact ⟨rfl, rfl⟩
    · split <;> exact ⟨rfl, rfl⟩

/-! ## The claims -/

/-- C1: add-then-remove round trip. For a configuration whose port keys are all
members of its services and a list `S` of catalog identifiers none of which is
configured, running `runAdd` with `S` and no port flag and then a confirmed
`runRemove` with `S` stores a configuration with the services list and the ports
map of the start. -/
theorem add_then_remove_roundtrip (sscanfD : String → Option Int) (cfg : Config)
    (S : List String) (force answer : Bool)
    (hports : PortsWithinServices cfg)
    (hcatalog : ∀ s ∈ S, GetService s ≠ none)
    (hnew : ∀ s ∈ S, s ∉ cfg.Services)
    (hconfirm : force = true ∨ answer = true) :
    (runRemove (runAdd sscanfD cfg S []).stored S force answer).stored.Services = cfg.Services
      ∧ (runRemove (runAdd sscanfD cfg S []).stored S force answer).stored.Ports = cfg.Ports := by
  have hfilter : S.filter (fun s => decide (s ∉ cfg.Services)) = S :=
    List.filter_eq_self.2 (fun s hs => by simpa using hnew s hs)
  have hadd : (runAdd sscanfD cfg S []).stored = addMutation GoMap.empty cfg S := by
    have h := runAdd_stored_of_ok sscanfD cfg S [] GoMap.empty
      ((ValidateServices_none S).2 hcatalog) rfl
    rwa [hfilter] at h
  have hsel : S.filter (fun s => decide (s ∈ (addMutation GoMap.empty cfg S).Services)) = S :=
    List.filter_eq_self.2 (fun s hs => by simp [addMutation_Services, hs])
  rw [hadd, runRemove_stored_of_confirmed _ _ _ _ hconfirm, hsel]
  constructor
  · rw [removeMutation_Services, addMutation_Services, List.filter_append]
    have h1 : cfg.Services.filter (fun s => decide (s ∉ S)) = cfg.Services :=
      List.filter_eq_self.2 (fun s hs => by
        simp only [decide_eq_true_eq]
        exact fun hS => hnew s hS hs)
    have h2 : S.filter (fun s => decide (s ∉ S)) = [] :=
      List.filter_eq_nil_iff.2 (fun s hs => by simp [hs])
    rw [h1, h2, List.append_nil]
  · funext k
    rw [removeMutation_Ports, addMutation_Ports]
    by_cases hk : k ∈ S
    · rw [if_pos hk]
      by_contra hne
      exact hnew k hk (hports k (fun h => hne h.symm))
    · rw [if_neg hk, if_neg hk]

/-- Witness of C1: MySQL configured, Redis added and removed again. -/
theorem add_then_remove_roundtrip_witness :
    PortsWithinServices mysqlOnlyConfig
      ∧ (runRemove (runAdd scanDecimal mysqlOnlyConfig ["redis"] []).stored ["redis"]
          true false).stored.Services = mysqlOnlyConfig.Services
      ∧ (runRemove (runAdd scanDecimal mysqlOnlyConfig ["redis"] []).stored ["redis"]
          true false).stored.Ports = mysqlOnlyConfig.Ports :=
  ⟨PortsWithinServices_mysqlOnlyConfig,
    add_then_remove_roundtrip scanDecimal mysqlOnlyConfig ["redis"] true false
      PortsWithinServices_mysqlOnlyConfig (by decide) (by decide) (Or.inl rfl)⟩

/-- C2: all-or-nothing rejection of unknown services. When the requested list
has an identifier that is not in the catalog, `runAdd` returns the unknown-service
error of the first such identifier of the list, whatever the other identifiers and
the port flags are, and the stored configuration (services, ports and env with it)
is the one before the call. -/
theorem runAdd_rejects_unknown (sscanfD : String → Option Int) (cfg : Config)
    (args flags : List String) (h : ∃ s ∈ args, GetService s = none) :
    ∃ pre name post, args = pre ++ name :: post
      ∧ (∀ s ∈ pre, GetService s ≠ none) ∧ GetService name = none
      ∧ (runAdd sscanfD cfg args flags).err = some (CmdError.unknownService name)
      ∧ (runAdd sscanfD cfg args flags).stored = cfg := by
  obtain ⟨pre, name, post, hsplit, hpre, hname, hval⟩ := ValidateServices_first_unknown args h
  refine ⟨pre, name, post, hsplit, hpre, hname, ?_, ?_⟩ <;> simp [runAdd, hval]

/-- Witness of C2: the request `redis not-a-service` on a configuration with MySQL. -/
theorem runAdd_rejects_unknown_witness :
    (∃ s ∈ ["redis", "not-a-service"], GetService s = none)
      ∧ ∃ pre name post, ["redis", "not-a-service"] = pre ++ name :: post
        ∧ (∀ s ∈ pre, GetService s ≠ none) ∧ GetService name = none
        ∧ (runAdd scanDecimal mysqlOnlyConfig ["redis", "not-a-service"] []).err
            = some (CmdError.unknownService name)
        ∧ (runAdd scanDecimal mysqlOnlyConfig ["redis", "not-a-service"] []).stored
            = mysqlOnlyConfig :=
  ⟨⟨"not-a-service", by decide, by decide⟩,
    runAdd_rejects_unknown scanDecimal mysqlOnlyConfig ["redis", "not-a-service"] []
      ⟨"not-a-service", by decide, by decide⟩⟩

/-- C3, the claim as stated fails: the key `DB_HOST` is present in the environment
with the empty string as value, and adding MySQL replaces that value by the default
`127.0.0.1`. -/
theorem runAdd_overwrites_empty_value :
    ValidateServices ["mysql"] = none
      ∧ emptyHostConfig.Env "DB_HOST" = some ""
      ∧ (runAdd scanDecimal emptyHostConfig ["mysql"] []).stored.Env "DB_HOST"
          = some "127.0.0.1"
      ∧ (runAdd scanDecimal emptyHostConfig ["mysql"] []).stored.Env "DB_HOST"
          ≠ emptyHostConfig.Env "DB_HOST" := by
  decide

/-- C3 as amended: a key whose value in `cfg.env` is not the empty string keeps its
value through `runAdd`; a key whose value changes was absent or held the empty
string, and its new value is a default that a newly added service declares for it. -/
theorem runAdd_keeps_nonempty_env (sscanfD : String → Option Int) (cfg : Config)
    (args flags : List String) (k : String) :
    (∀ v, cfg.Env k = some v → v ≠ "" →
        (runAdd sscanfD cfg args flags).stored.Env k = some v)
      ∧ ((runAdd sscanfD cfg args flags).stored.Env k ≠ cfg.Env k →
          cfg.Env.getD k "" = ""
            ∧ ∃ s ∈ args, s ∉ cfg.Services ∧ ∃ v, (k, v) ∈ defaultEnv s
                ∧ (runAdd sscanfD cfg args flags).stored.Env k = some v) := by
  have hkeep : ∀ v, cfg.Env k = some v → v ≠ "" →
      (runAdd sscanfD cfg args flags).stored.Env k = some v := by
    intro v hk hv
    rcases runAdd_stored_cases sscanfD cfg args flags with h | ⟨cp, h⟩
    · rw [h]; exact hk
    · rw [h]; exact addMutation_Env_keep cp cfg _ k v hk hv
  refine ⟨hkeep, ?_⟩
  intro hne
  constructor
  · cases hk : cfg.Env k with
    | none => simp [GoMap.getD, hk]
    | some v =>
      by_cases hv : v = ""
      · simp [GoMap.getD, hk, hv]
      · exact absurd ((hkeep v hk hv).trans hk.symm) hne
  · rcases runAdd_stored_cases sscanfD cfg args flags with h | ⟨cp, h⟩
    · rw [h] at hne; exact absurd rfl hne
    · rw [h] at hne ⊢
      rcases addMutation_Env_cases cp cfg _ k with h2 | ⟨s, hs, v, hv, h2⟩
      · exact absurd h2 hne
      · obtain ⟨hs1, hs2⟩ := List.mem_filter.1 hs
        exact ⟨s, hs1, by simpa using hs2, v, hv, h2⟩

/-- Witness of C3 as amended: adding MySQL keeps an overridden `DB_HOST`, and
replaces an empty `DB_HOST` by the default of MySQL. -/
theorem runAdd_keeps_nonempty_env_witness :
    customHostConfig.Env "DB_HOST" = some "db.internal"
      ∧ (runAdd scanDecimal customHostConfig ["mysql"] []).stored.Env "DB_HOST"
          = some "db.internal"
      ∧ emptyHostConfig.Env.getD "DB_HOST" "" = ""
      ∧ ∃ s ∈ ["mysql"], s ∉ emptyHostConfig.Services ∧ ∃ v, ("DB_HOST", v) ∈ defaultEnv s
          ∧ (runAdd scanDecimal emptyHostConfig ["mysql"] []).stored.Env "DB_HOST" = some v :=
  ⟨by decide,
    (runAdd_keeps_nonempty_env scanDecimal customHostConfig ["mysql"] [] "DB_HOST").1
      "db.internal" (by decide) (by decide),
    (runAdd_keeps_nonempty_env scanDecimal emptyHostConfig ["mysql"] [] "DB_HOST").2
      (by decide)⟩

/-- C4, the code at the failing input: the request `redis redis` on the empty
configuration is valid and stores the services list `redis, redis`, which repeats
an identifier. -/
theorem runAdd_repeats_service :
    (emptyConfig "/var/lib/dockenv").Services.Nodup
      ∧ ValidateServices ["redis", "redis"] = none
      ∧ (runAdd scanDecimal (emptyConfig "/var/lib/dockenv") ["redis", "redis"] []).err = none
      ∧ (runAdd scanDecimal (emptyConfig "/var/lib/dockenv") ["redis", "redis"] []).stored.Services
          = ["redis", "redis"]
      ∧ ¬ (runAdd scanDecimal (emptyConfig "/var/lib/dockenv") ["redis", "redis"]
            []).stored.Services.Nodup := by
  decide

/-- C5: the ports-subset invariant. If every key of `cfg.ports` is a member of
`cfg.services`, the configuration stored by `runAdd`, with any port flags, and the
configuration stored by `runRemove` have the same property. -/
theorem ports_within_services_preserved (sscanfD : String → Option Int) (cfg : Config)
    (addArgs flags removeArgs : List String) (force answer : Bool)
    (h : PortsWithinServices cfg) :
    PortsWithinServices (runAdd sscanfD cfg addArgs flags).stored
      ∧ PortsWithinServices (runRemove cfg removeArgs force answer).stored := by
  constructor
  · rcases runAdd_stored_cases sscanfD cfg addArgs flags with h1 | ⟨cp, h1⟩
    · rw [h1]; exact h
    · rw [h1]; exact PortsWithinServices_addMutation cp cfg _ h
  · rcases runRemove_stored_cases cfg removeArgs force answer with h1 | h1
    · rw [h1]; exact h
    · rw [h1]; exact PortsWithinServices_removeMutation cfg _ h

/-- Witness of C5: Redis is added on port 6380 to, and MySQL is removed from, a
configuration with MySQL. -/
theorem ports_within_services_preserved_witness :
    PortsWithinServices mysqlOnlyConfig
      ∧ PortsWithinServices (runAdd scanDecimal mysqlOnlyConfig ["redis"] ["redis:6380"]).stored
      ∧ PortsWithinServices (runRemove mysqlOnlyConfig ["mysql"] true false).stored :=
  ⟨PortsWithinServices_mysqlOnlyConfig,
    ports_within_services_preserved scanDecimal mysqlOnlyConfig ["redis"] ["redis:6380"]
      ["mysql"] true false PortsWithinServices_mysqlOnlyConfig⟩

/-- C6, the claim as stated fails: MySQL is configured, the request is `mysql` and
the port flag `redis:1234` names a service that is not newly added; `runAdd`
returns no error. -/
theorem runAdd_ignores_flags_without_new_service :
    ValidateServices ["mysql"] = none
      ∧ stringsSplitColon "redis:1234" = ["redis", "1234"]
      ∧ "redis" ∉ ["mysql"].filter (fun s => decide (s ∉ mysqlOnlyConfig.Services))
      ∧ (runAdd scanDecimal mysqlOnlyConfig ["mysql"] ["redis:1234"]).err = none := by
  decide

/-- C6 as amended: for a valid request and a port flag `service:port` whose service
is not among the newly added ones, `runAdd` leaves the stored configuration as it
was; it returns an error when the request has a new service, and no error when
every requested service is already configured. -/
theorem runAdd_misdirected_port (sscanfD : String → Option Int) (cfg : Config)
    (args flags : List String)
    (hvalid : ValidateServices args = none)
    (hflag : ∃ portSpec ∈ flags, ∃ serviceName portStr,
      stringsSplitColon portSpec = [serviceName, portStr]
        ∧ serviceName ∉ args.filter (fun s => decide (s ∉ cfg.Services))) :
    (runAdd sscanfD cfg args flags).stored = cfg
      ∧ (args.filter (fun s => decide (s ∉ cfg.Services)) ≠ [] →
          ∃ e, (runAdd sscanfD cfg args flags).err = some e)
      ∧ (args.filter (fun s => decide (s ∉ cfg.Services)) = [] →
          (runAdd sscanfD cfg args flags).err = none) := by
  obtain ⟨e, he⟩ := parseCustomPorts_misdirected sscanfD _ flags GoMap.empty hflag
  unfold runAdd
  simp only [hvalid, splitRequested_eq]
  split
  · rename_i h0
    refine ⟨rfl, ?_, fun _ => rfl⟩
    intro hne
    exact absurd (List.length_eq_zero.1 h0) hne
  · rename_i h0
    rw [he]
    refine ⟨rfl, fun _ => ⟨e, rfl⟩, ?_⟩
    intro hnil
    rw [hnil] at h0
    exact absurd rfl h0

/-- Witness of C6 as amended: Redis is requested with a port flag for MongoDB, and
the command fails without storing anything. -/
theorem runAdd_misdirected_port_witness :
    ValidateServices ["redis"] = none
      ∧ (∃ portSpec ∈ ["mongodb:27018"], ∃ serviceName portStr,
          stringsSplitColon portSpec = [serviceName, portStr]
            ∧ serviceName ∉ ["redis"].filter (fun s => decide (s ∉ mysqlOnlyConfig.Services)))
      ∧ (runAdd scanDecimal mysqlOnlyConfig ["redis"] ["mongodb:27018"]).stored = mysqlOnlyConfig
      ∧ ∃ e, (runAdd scanDecimal mysqlOnlyConfig ["redis"] ["mongodb:27018"]).err = some e :=
  ⟨by decide, ⟨"mongodb:27018", by decide, "mongodb", "27018", by decide, by decide⟩,
    (runAdd_misdirected_port scanDecimal mysqlOnlyConfig ["redis"] ["mongodb:27018"]
      (by decide) ⟨"mongodb:27018", by decide, "mongodb", "27018", by decide, by decide⟩).1,
    (runAdd_misdirected_port scanDecimal mysqlOnlyConfig ["redis"] ["mongodb:27018"]
      (by decide) ⟨"mongodb:27018", by decide, "mongodb", "27018", by decide, by decide⟩).2.1
      (by decide)⟩

/-- C7: partition and append order of add. For a valid request `R` whose port
flags are accepted, `runAdd` reports as already configured the elements of `R` that
are in `cfg.services` and as new those that are not, each in request order; the
stored services list is `cfg.services` followed by the new ones, so every stored
service keeps its position. -/
theorem runAdd_partition_append (sscanfD : String → Option Int) (cfg : Config)
    (R flags : List String)
    (hvalid : ValidateServices R = none)
    (hflags : ∃ cp, parseCustomPorts sscanfD (R.filter (fun s => decide (s ∉ cfg.Services)))
      flags GoMap.empty = Except.ok cp) :
    (runAdd sscanfD cfg R flags).existingServices
        = R.filter (fun s => decide (s ∈ cfg.Services))
      ∧ (runAdd sscanfD cfg R flags).newServices
        = R.filter (fun s => decide (s ∉ cfg.Services))
      ∧ (runAdd sscanfD cfg R flags).stored.Services
        = cfg.Services ++ R.filter (fun s => decide (s ∉ cfg.Services))
      ∧ ∀ i, i < cfg.Services.length →
          (runAdd sscanfD cfg R flags).stored.Services[i]? = cfg.Services[i]? := by
  obtain ⟨cp, hcp⟩ := hflags
  have hlists := runAdd_lists sscanfD cfg R flags hvalid
  have hserv : (runAdd sscanfD cfg R flags).stored.Services
      = cfg.Services ++ R.filter (fun s => decide (s ∉ cfg.Services)) := by
    rw [runAdd_stored_of_ok sscanfD cfg R flags cp hvalid hcp, addMutation_Services]
  refine ⟨hlists.1, hlists.2, hserv, ?_⟩
  intro i hi
  rw [hserv, List.getElem?_append_left hi]

/-- Witness of C7: the request `redis mysql mongodb` on a configuration with MySQL. -/
theorem runAdd_partition_append_witness :
    ValidateServices ["redis", "mysql", "mongodb"] = none
      ∧ (runAdd scanDecimal mysqlOnlyConfig ["redis", "mysql", "mongodb"] []).existingServices
          = ["mysql"]
      ∧ (runAdd scanDecimal mysqlOnlyConfig ["redis", "mysql", "mongodb"] []).newServices
          = ["redis", "mongodb"]
      ∧ (runAdd scanDecimal mysqlOnlyConfig ["redis", "mysql", "mongodb"] []).stored.Services
          = ["mysql", "redis", "mongodb"] :=
  ⟨by decide,
    (runAdd_partition_append scanDecimal mysqlOnlyConfig ["redis", "mysql", "mongodb"] []
      (by decide) ⟨GoMap.empty, rfl⟩).1,
    (runAdd_partition_append scanDecimal mysqlOnlyConfig ["redis", "mysql", "mongodb"] []
      (by decide) ⟨GoMap.empty, rfl⟩).2.1,
    (runAdd_partition_append scanDecimal mysqlOnlyConfig ["redis", "mysql", "mongodb"] []
      (by decide) ⟨GoMap.empty, rfl⟩).2.2.1⟩

/-- C8: port assignment of add. For a valid request whose port flags are accepted
and a newly added service `s`: when a flag names `s`, the stored port of `s` is the
port of the last such flag; when no flag names `s`, it is the default port of the
catalog entry of `s`. The port entry of every service that was already configured
is the one before the call. -/
theorem runAdd_port_assignment (sscanfD : String → Option Int) (cfg : Config)
    (R flags : List String)
    (hvalid : ValidateServices R = none)
    (hflags : ∃ cp, parseCustomPorts sscanfD (R.filter (fun s => decide (s ∉ cfg.Services)))
      flags GoMap.empty = Except.ok cp) :
    (∀ s ∈ R, s ∉ cfg.Services → ∀ pre spec post portStr port,
        flags = pre ++ spec :: post → stringsSplitColon spec = [s, portStr] →
        sscanfD portStr = some port →
        (∀ t ∈ post, ∀ ps, stringsSplitColon t ≠ [s, ps]) →
        (runAdd sscanfD cfg R flags).stored.Ports s = some port)
      ∧ (∀ s ∈ R, s ∉ cfg.Services →
          (∀ t ∈ flags, ∀ ps, stringsSplitColon t ≠ [s, ps]) →
          ∃ service, GetService s = some service
            ∧ (runAdd sscanfD cfg R flags).stored.Ports s = some service.DefaultPort)
      ∧ (∀ s ∈ cfg.Services, (runAdd sscanfD cfg R flags).stored.Ports s = cfg.Ports s) := by
  obtain ⟨cp, hcp⟩ := hflags
  rw [runAdd_stored_of_ok sscanfD cfg R flags cp hvalid hcp]
  have hmem : ∀ s ∈ R, s ∉ cfg.Services →
      s ∈ R.filter (fun s => decide (s ∉ cfg.Services)) :=
    fun s hs hn => List.mem_filter.2 ⟨hs, by simpa using hn⟩
  refine ⟨?_, ?_, ?_⟩
  · intro s hs hn pre spec post portStr port hsplit hspec hscan hpost
    rw [addMutation_Ports, if_pos (hmem s hs hn)]
    rw [hsplit] at hcp
    have h := parseCustomPorts_last _ _ _ _ _ _ _ _ _ _ hcp hspec hscan hpost
    simp [assignedPort, h]
  · intro s hs hn hno
    rw [addMutation_Ports, if_pos (hmem s hs hn)]
    have h := parseCustomPorts_unnamed _ _ _ _ _ s hcp hno
    have hget := (ValidateServices_none R).1 hvalid s hs
    cases hg : GetService s with
    | none => exact absurd hg hget
    | some service =>
      refine ⟨service, rfl, ?_⟩
      simp [assignedPort, h, hg]
  · intro s hs
    rw [addMutation_Ports, if_neg]
    intro hin
    have := (List.mem_filter.1 hin).2
    simp at this
    exact this hs

/-- Witness of C8: Redis and MongoDB are added to a configuration with MySQL, Redis
on port 6380. -/
theorem runAdd_port_assignment_witness :
    ValidateServices ["redis", "mongodb"] = none
      ∧ (runAdd scanDecimal mysqlOnlyConfig ["redis", "mongodb"] ["redis:6380"]).stored.Ports
          "redis" = some 6380
      ∧ (∃ service, GetService "mongodb" = some service
          ∧ (runAdd scanDecimal mysqlOnlyConfig ["redis", "mongodb"] ["redis:6380"]).stored.Ports
              "mongodb" = some service.DefaultPort)
      ∧ (runAdd scanDecimal mysqlOnlyConfig ["redis", "mongodb"] ["redis:6380"]).stored.Ports
          "mysql" = mysqlOnlyConfig.Ports "mysql" :=
  ⟨by decide,
    (runAdd_port_assignment scanDecimal mysqlOnlyConfig ["redis", "mongodb"] ["redis:6380"]
      (by decide) ⟨GoMap.empty.set "redis" 6380, rfl⟩).1 "redis" (by decide) (by decide)
      [] "redis:6380" [] "6380" 6380 rfl (by decide) (by decide) (by simp),
    (runAdd_port_assignment scanDecimal mysqlOnlyConfig ["redis", "mongodb"] ["redis:6380"]
      (by decide) ⟨GoMap.empty.set "redis" 6380, rfl⟩).2.1 "mongodb" (by decide)
      (by decide)
      (by
        intro t ht ps
        have hsplit : stringsSplitColon "redis:6380" = ["redis", "6380"] := by decide
        rw [List.mem_singleton.1 ht, hsplit]
        simp),
    (runAdd_port_assignment scanDecimal mysqlOnlyConfig ["redis", "mongodb"] ["redis:6380"]
      (by decide) ⟨GoMap.empty.set "redis" 6380, rfl⟩).2.2 "mysql" (by decide)⟩

/-- C9: the scenario of the spec. From the empty configuration, `runAdd` with the
request `mysql redis` and no port flag returns no error and stores the services
`mysql, redis`, the ports 3306 for `mysql` and 6379 for `redis` and no other port,
and an environment in which `DB_CONNECTION` is `mysql`, the keys `REDIS_HOST`,
`REDIS_PORT` and `REDIS_PASSWORD` have the defaults of Redis, and every default of
MySQL has the value MySQL declares. -/
theorem runAdd_mysql_redis_scenario (dataPath : String) :
    (runAdd scanDecimal (emptyConfig dataPath) ["mysql", "redis"] []).err = none
      ∧ (runAdd scanDecimal (emptyConfig dataPath) ["mysql", "redis"] []).stored.Services
          = ["mysql", "redis"]
      ∧ (runAdd scanDecimal (emptyConfig dataPath) ["mysql", "redis"] []).stored.Ports
          = (GoMap.empty.set "mysql" 3306).set "redis" 6379
      ∧ (runAdd scanDecimal (emptyConfig dataPath) ["mysql", "redis"] []).stored.Env
          "DB_CONNECTION" = some "mysql"
      ∧ (runAdd scanDecimal (emptyConfig dataPath) ["mysql", "redis"] []).stored.Env
          "REDIS_HOST" = some "127.0.0.1"
      ∧ (runAdd scanDecimal (emptyConfig dataPath) ["mysql", "redis"] []).stored.Env
          "REDIS_PORT" = some "6379"
      ∧ (runAdd scanDecimal (emptyConfig dataPath) ["mysql", "redis"] []).stored.Env
          "REDIS_PASSWORD" = some ""
      ∧ (∀ kv ∈ defaultEnv "mysql",
          (runAdd scanDecimal (emptyConfig dataPath) ["mysql", "redis"] []).stored.Env kv.1
            = some kv.2)
      ∧ (∀ kv ∈ defaultEnv "mysql", ∀ kw ∈ defaultEnv "redis", kv.1 ≠ kw.1) := by
  refine ⟨rfl, rfl, ?_, rfl, rfl, rfl, rfl, ?_, by decide⟩
  swap
  · have hEnv : (runAdd scanDecimal (emptyConfig dataPath) ["mysql", "redis"] []).stored.Env
        = (runAdd scanDecimal (emptyConfig "") ["mysql", "redis"] []).stored.Env := rfl
    rw [hEnv]
    decide
  funext k
  have h : (runAdd scanDecimal (emptyConfig dataPath) ["mysql", "redis"] []).stored.Ports
      = ((emptyConfig dataPath).Ports.set "mysql" 3306).set "redis" 6379 := rfl
  rw [h]
  rfl

/-- C10: removing only absent services is a no-op. When no requested identifier is
in `cfg.services`, `runRemove` reports every requested identifier as missing and
none as removed, returns no error, and the stored configuration is `cfg`. -/
theorem runRemove_absent_noop (cfg : Config) (args : List String) (force answer : Bool)
    (habsent : ∀ s ∈ args, s ∉ cfg.Services) :
    (runRemove cfg args force answer).missingServices = args
      ∧ (runRemove cfg args force answer).servicesToRemove = []
      ∧ (runRemove cfg args force answer).err = none
      ∧ (runRemove cfg args force answer).stored = cfg := by
  have h1 : args.filter (fun s => decide (s ∈ cfg.Services)) = [] :=
    List.filter_eq_nil_iff.2 (fun s hs => by simpa using habsent s hs)
  have h2 : args.filter (fun s => decide (s ∉ cfg.Services)) = args :=
    List.filter_eq_self.2 (fun s hs => by simpa using habsent s hs)
  have hrun : runRemove cfg args force answer = ⟨cfg, none, [], args⟩ := by
    unfold runRemove
    simp only [splitRequested_eq, h1, h2, List.length_nil, if_true]
  rw [hrun]
  exact ⟨rfl, rfl, rfl, rfl⟩

/-- Witness of C10: the request `redis` on a configuration with only MySQL. -/
theorem runRemove_absent_noop_witness :
    mysqlOnlyConfig.Services = ["mysql"]
      ∧ (∀ s ∈ ["redis"], s ∉ mysqlOnlyConfig.Services)
      ∧ (runRemove mysqlOnlyConfig ["redis"] false true).missingServices = ["redis"]
      ∧ (runRemove mysqlOnlyConfig ["redis"] false true).servicesToRemove = []
      ∧ (runRemove mysqlOnlyConfig ["redis"] false true).err = none
      ∧ (runRemove mysqlOnlyConfig ["redis"] false true).stored = mysqlOnlyConfig :=
  ⟨rfl, by decide, runRemove_absent_noop mysqlOnlyConfig ["redis"] false true (by decide)⟩

/-! ## Lemmas on the environment and on `UpdateDockerCompose` -/

theorem removeString_foldl (item : String) (slice result : List String) :
    slice.foldl (fun result s => if s ≠ item then result ++ [s] else result) result
      = result ++ slice.filter (fun s => decide (s ≠ item)) := by
  induction slice generalizing result with
  | nil => simp
  | cons a rest ih =>
    rw [List.foldl_cons, ih]
    by_cases h : a = item
    · simp [h]
    · simp [h]

theorem removeString_eq_RemoveString (slice : List String) (item : String) :
    removeString slice item = RemoveString slice item := by
  unfold removeString RemoveString
  rw [removeString_foldl]
  simp

theorem updateRemoveService_eq (cfg : Config) (a : String) :
    updateRemoveService cfg a = removeService cfg a := by
  unfold updateRemoveService removeService
  rw [removeString_eq_RemoveString]

theorem updateRemove_foldl_eq (cfg : Config) (l : List String) :
    l.foldl updateRemoveService cfg = removeMutation cfg l := by
  have h : updateRemoveService = removeService := by
    funext c a
    exact updateRemoveService_eq c a
  rw [h]
  rfl

theorem deleteKeys_apply (vars : List (String × String)) (env : GoMap String) (k : String) :
    vars.foldl (fun e kv => e.delete kv.1) env k
      = if k ∈ vars.map Prod.fst then none else env k := by
  induction vars generalizing env with
  | nil => simp
  | cons kv rest ih =>
    rw [List.foldl_cons, ih]
    by_cases h1 : k ∈ rest.map Prod.fst
    · simp [h1]
    · by_cases h2 : k = kv.1
      · simp [h2]
      · simp [h1, h2]

theorem removeService_Env (cfg : Config) (a : String) (k : String) :
    (removeService cfg a).Env k = if k ∈ defaultEnvKeys a then none else cfg.Env k := by
  unfold removeService defaultEnvKeys defaultEnv
  cases h : GetService a with
  | none => simp [Service.zero]
  | some service =>
    simp only [Option.getD_some]
    exact deleteKeys_apply service.EnvVars cfg.Env k

theorem removeMutation_Env (cfg : Config) (l : List String) (k : String) :
    (removeMutation cfg l).Env k
      = if ∃ s ∈ l, k ∈ defaultEnvKeys s then none else cfg.Env k := by
  induction l generalizing cfg with
  | nil => simp [removeMutation]
  | cons a rest ih =>
    rw [removeMutation_cons, ih, removeService_Env]
    by_cases h1 : ∃ s ∈ rest, k ∈ defaultEnvKeys s
    · have h2 : ∃ s ∈ a :: rest, k ∈ defaultEnvKeys s := by
        obtain ⟨s, hs, hk⟩ := h1
        exact ⟨s, List.mem_cons_of_mem _ hs, hk⟩
      rw [if_pos h1, if_pos h2]
    · rw [if_neg h1]
      by_cases h3 : k ∈ defaultEnvKeys a
      · rw [if_pos h3, if_pos ⟨a, List.mem_cons_self _ _, h3⟩]
      · have h4 : ¬ ∃ s ∈ a :: rest, k ∈ defaultEnvKeys s := by
          rintro ⟨s, hs, hk⟩
          rcases List.mem_cons.1 hs with heq | hin
          · subst heq; exact h3 hk
          · exact h1 ⟨s, hin, hk⟩
        rw [if_neg h3, if_neg h4]

theorem runRemove_lists (cfg : Config) (args : List String) (force answer : Bool) :
    (runRemove cfg args force answer).servicesToRemove
        = args.filter (fun s => decide (s ∈ cfg.Services))
      ∧ (runRemove cfg args force answer).missingServices
        = args.filter (fun s => decide (s ∉ cfg.Services)) := by
  unfold runRemove
  simp only [splitRequested_eq]
  split
  · exact ⟨rfl, rfl⟩
  · split
    · exact ⟨rfl, rfl⟩
    · split <;> exact ⟨rfl, rfl⟩

theorem UpdateDockerCompose_cfg (cfg : Config) (toAdd R : List String) :
    (UpdateDockerCompose cfg toAdd R).cfg
      = removeMutation (toAdd.foldl updateAddService cfg) R := by
  unfold UpdateDockerCompose
  exact updateRemove_foldl_eq _ R

/-- C11: remove preserves the order of the remaining services. After a confirmed
`runRemove` with the request `R` the stored services list is `cfg.services` with
the elements that occur in `R` filtered out, and so is the list that the remove
loop of `UpdateDockerCompose` (helper `removeString`) leaves, from the
configuration `mid` it starts on; what remains keeps its relative order. -/
theorem remove_filters_services (cfg : Config) (R toAdd : List String) (force answer : Bool)
    (hconfirm : force = true ∨ answer = true) :
    (runRemove cfg R force answer).stored.Services
        = cfg.Services.filter (fun s => decide (s ∉ R))
      ∧ (runRemove cfg R force answer).stored.Services.Sublist cfg.Services
      ∧ (UpdateDockerCompose cfg toAdd R).cfg.Services
        = (toAdd.foldl updateAddService cfg).Services.filter (fun s => decide (s ∉ R))
      ∧ (∀ slice item, removeString slice item = slice.filter (fun s => decide (s ≠ item))) := by
  have h1 : (runRemove cfg R force answer).stored.Services
      = cfg.Services.filter (fun s => decide (s ∉ R)) := by
    rw [runRemove_stored_of_confirmed cfg R force answer hconfirm, removeMutation_Services]
    apply List.filter_congr
    intro s hs
    simp [List.mem_filter, hs]
  refine ⟨h1, ?_, ?_, ?_⟩
  · rw [h1]; exact List.filter_sublist _
  · rw [UpdateDockerCompose_cfg, removeMutation_Services]
  · intro slice item
    rw [removeString_eq_RemoveString]
    rfl

/-- Witness of C11: PostgreSQL is removed from the services `mysql, postgres`. -/
theorem remove_filters_services_witness :
    (runRemove mysqlPostgresConfig ["postgres"] true false).stored.Services = ["mysql"]
      ∧ (UpdateDockerCompose mysqlPostgresConfig [] ["postgres"]).cfg.Services = ["mysql"] :=
  ⟨(remove_filters_services mysqlPostgresConfig ["postgres"] [] true false (Or.inl rfl)).1,
    (remove_filters_services mysqlPostgresConfig ["postgres"] [] true false (Or.inl rfl)).2.2.1⟩

/-- C12: remove deletes exactly the port entries of the removed services. After a
confirmed `runRemove` the stored ports map has no entry for a removed service and
the entry of every other name is the one before; the same holds of the remove
loop of `UpdateDockerCompose`, from the configuration it starts on. -/
theorem remove_deletes_ports (cfg : Config) (R toAdd : List String) (force answer : Bool)
    (hconfirm : force = true ∨ answer = true) :
    (∀ s ∈ (runRemove cfg R force answer).servicesToRemove,
        (runRemove cfg R force answer).stored.Ports s = none)
      ∧ (∀ s, s ∉ (runRemove cfg R force answer).servicesToRemove →
          (runRemove cfg R force answer).stored.Ports s = cfg.Ports s)
      ∧ (∀ s ∈ R, (UpdateDockerCompose cfg toAdd R).cfg.Ports s = none)
      ∧ (∀ s, s ∉ R → (UpdateDockerCompose cfg toAdd R).cfg.Ports s
          = (toAdd.foldl updateAddService cfg).Ports s) := by
  rw [(runRemove_lists cfg R force answer).1,
    runRemove_stored_of_confirmed cfg R force answer hconfirm, UpdateDockerCompose_cfg]
  refine ⟨?_, ?_, ?_, ?_⟩
  · intro s hs
    rw [removeMutation_Ports, if_pos hs]
  · intro s hs
    rw [removeMutation_Ports, if_neg hs]
  · intro s hs
    rw [removeMutation_Ports, if_pos hs]
  · intro s hs
    rw [removeMutation_Ports, if_neg hs]

/-- Witness of C12: PostgreSQL is removed from the services `mysql, postgres`. -/
theorem remove_deletes_ports_witness :
    (runRemove mysqlPostgresConfig ["postgres"] true false).servicesToRemove = ["postgres"]
      ∧ (runRemove mysqlPostgresConfig ["postgres"] true false).stored.Ports "postgres" = none
      ∧ (runRemove mysqlPostgresConfig ["postgres"] true false).stored.Ports "mysql"
          = mysqlPostgresConfig.Ports "mysql"
      ∧ mysqlPostgresConfig.Ports "mysql" = some 3306
      ∧ mysqlPostgresConfig.Ports "postgres" = some 5432 :=
  ⟨by decide,
    (remove_deletes_ports mysqlPostgresConfig ["postgres"] [] true false (Or.inl rfl)).1
      "postgres" (by decide),
    (remove_deletes_ports mysqlPostgresConfig ["postgres"] [] true false (Or.inl rfl)).2.1
      "mysql" (by decide),
    by decide, by decide⟩

/-- C13: environment deletion is keyed by name. After a confirmed `runRemove` every
key of the default environment of a removed service is absent from the stored
environment, whatever its value was and whichever services remain, and every other
key has the value it had. -/
theorem remove_deletes_env_by_name (cfg : Config) (R : List String) (force answer : Bool)
    (hconfirm : force = true ∨ answer = true) :
    (∀ s ∈ (runRemove cfg R force answer).servicesToRemove, ∀ k ∈ defaultEnvKeys s,
        (runRemove cfg R force answer).stored.Env k = none)
      ∧ (∀ k, (∀ s ∈ (runRemove cfg R force answer).servicesToRemove, k ∉ defaultEnvKeys s) →
          (runRemove cfg R force answer).stored.Env k = cfg.Env k) := by
  rw [(runRemove_lists cfg R force answer).1,
    runRemove_stored_of_confirmed cfg R force answer hconfirm]
  constructor
  · intro s hs k hk
    rw [removeMutation_Env, if_pos ⟨s, hs, hk⟩]
  · intro k hk
    rw [removeMutation_Env, if_neg]
    rintro ⟨s, hs, hin⟩
    exact hk s hs hin

/-- Witness of C13: with MySQL, PostgreSQL and Redis configured, removing PostgreSQL
deletes `DB_HOST`, a default of MySQL too, and keeps `REDIS_HOST`. -/
theorem remove_deletes_env_by_name_witness :
    (runRemove threeServiceConfig ["postgres"] true false).servicesToRemove = ["postgres"]
      ∧ "DB_HOST" ∈ defaultEnvKeys "postgres"
      ∧ threeServiceConfig.Env "DB_HOST" = some "127.0.0.1"
      ∧ (runRemove threeServiceConfig ["postgres"] true false).stored.Env "DB_HOST" = none
      ∧ threeServiceConfig.Env "REDIS_HOST" = some "127.0.0.1"
      ∧ (runRemove threeServiceConfig ["postgres"] true false).stored.Env "REDIS_HOST"
          = threeServiceConfig.Env "REDIS_HOST" :=
  ⟨by decide, by decide, by decide,
    (remove_deletes_env_by_name threeServiceConfig ["postgres"] true false (Or.inl rfl)).1
      "postgres" (by decide) "DB_HOST" (by decide),
    by decide,
    (remove_deletes_env_by_name threeServiceConfig ["postgres"] true false (Or.inl rfl)).2
      "REDIS_HOST" (by decide)⟩

/-- C14, the code at the failing input: after `dockenv add mysql postgres` on the
empty configuration, removing PostgreSQL leaves MySQL configured, `DB_HOST` is a
default of MySQL, and both `runRemove` and `UpdateDockerCompose` delete `DB_HOST`
from the environment. -/
theorem remove_deletes_shared_env_key :
    mysqlPostgresConfig.Services = ["mysql", "postgres"]
      ∧ mysqlPostgresConfig.Env "DB_HOST" = some "127.0.0.1"
      ∧ ("DB_HOST", "127.0.0.1") ∈ defaultEnv "mysql"
      ∧ (runRemove mysqlPostgresConfig ["postgres"] true false).servicesToRemove = ["postgres"]
      ∧ (runRemove mysqlPostgresConfig ["postgres"] true false).stored.Services = ["mysql"]
      ∧ (runRemove mysqlPostgresConfig ["postgres"] true false).stored.Env "DB_HOST" = none
      ∧ (UpdateDockerCompose mysqlPostgresConfig [] ["postgres"]).cfg.Services = ["mysql"]
      ∧ (UpdateDockerCompose mysqlPostgresConfig [] ["postgres"]).cfg.Env "DB_HOST" = none := by
  decide

/-! ## Lemmas on the catalog -/

theorem lookupEntry_eq_none_iff {α : Type} (name : String) (l : List (String × α)) :
    lookupEntry name l = none ↔ name ∉ l.map Prod.fst := by
  induction l with
  | nil => simp [lookupEntry]
  | cons kv rest ih =>
    obtain ⟨k, v⟩ := kv
    unfold lookupEntry
    by_cases h : k = name
    · simp [h]
    · have h2 : ¬ name = k := fun e => h e.symm
      simp [h, h2, ih]

theorem GetService_eq_none_iff (name : String) :
    GetService name = none ↔ name ∉ GetServiceNames :=
  lookupEntry_eq_none_iff name AvailableServices

/-- C18: `ValidateServices` fails exactly on unknown identifiers. It returns an
error if and only if some element of the list is not a key of the catalog, the
error is the unknown-service error of the first such element in list order, and
the empty list is accepted. -/
theorem ValidateServices_fails_iff_unknown (l : List String) :
    (ValidateServices l ≠ none ↔ ∃ s ∈ l, s ∉ GetServiceNames)
      ∧ (∀ e, ValidateServices l = some e →
          ∃ pre name post, l = pre ++ name :: post ∧ (∀ s ∈ pre, s ∈ GetServiceNames)
            ∧ name ∉ GetServiceNames ∧ e = CmdError.unknownService name)
      ∧ ValidateServices [] = none := by
  have hiff : ValidateServices l ≠ none ↔ ∃ s ∈ l, s ∉ GetServiceNames := by
    rw [Ne, ValidateServices_none]
    constructor
    · intro h
      by_contra hno
      apply h
      intro s hs hnone
      exact hno ⟨s, hs, (GetService_eq_none_iff s).1 hnone⟩
    · rintro ⟨s, hs, hk⟩ hall
      exact hall s hs ((GetService_eq_none_iff s).2 hk)
  refine ⟨hiff, ?_, rfl⟩
  intro e he
  have hne : ValidateServices l ≠ none := by rw [he]; simp
  obtain ⟨s, hs, hk⟩ := hiff.1 hne
  obtain ⟨pre, name, post, hsplit, hpre, hname, hval⟩ :=
    ValidateServices_first_unknown l ⟨s, hs, (GetService_eq_none_iff s).2 hk⟩
  refine ⟨pre, name, post, hsplit, ?_, (GetService_eq_none_iff name).1 hname, ?_⟩
  · intro t ht
    by_contra hn
    exact hpre t ht ((GetService_eq_none_iff t).2 hn)
  · rw [hval] at he
    exact (Option.some.inj he).symm

/-- Witness of C18: the list `mysql, invalid` of `TestValidateServices`. -/
theorem ValidateServices_fails_iff_unknown_witness :
    ValidateServices ["mysql", "invalid"] = some (CmdError.unknownService "invalid")
      ∧ ∃ pre name post, ["mysql", "invalid"] = pre ++ name :: post
          ∧ (∀ s ∈ pre, s ∈ GetServiceNames) ∧ name ∉ GetServiceNames
          ∧ CmdError.unknownService "invalid" = CmdError.unknownService name :=
  ⟨by decide,
    (ValidateServices_fails_iff_unknown ["mysql", "invalid"]).2.1
      (CmdError.unknownService "invalid") (by decide)⟩

/-- C19: catalog entries are well formed. For every key `k` of `AvailableServices`
the lookup `GetService k` finds an entry whose `Name` is `k`, whose `DisplayName`,
`Description` and `Template` are not empty and whose `DefaultPort` is not zero;
for every string that is not a key, `GetService` finds nothing. -/
theorem catalog_well_formed :
    (∀ k ∈ GetServiceNames, ∃ service, GetService k = some service ∧ service.Name = k
        ∧ service.DisplayName ≠ "" ∧ service.Description ≠ "" ∧ service.Template ≠ ""
        ∧ service.DefaultPort ≠ 0)
      ∧ (∀ name, name ∉ GetServiceNames → GetService name = none)
      ∧ GetServiceNames.Nodup := by
  have hall : ∀ kv ∈ AvailableServices, GetService kv.1 = some kv.2 ∧ kv.2.Name = kv.1
      ∧ kv.2.DisplayName ≠ "" ∧ kv.2.Description ≠ "" ∧ kv.2.Template ≠ ""
      ∧ kv.2.DefaultPort ≠ 0 := by
    decide
  refine ⟨?_, fun name h => (GetService_eq_none_iff name).2 h, by decide⟩
  intro k hk
  obtain ⟨kv, hkv, hfst⟩ := List.mem_map.1 hk
  subst hfst
  exact ⟨kv.2, hall kv hkv⟩

/-! ## Lemmas on compose generation -/

theorem GetEmbeddedTemplate_eq_none_iff (name : String) :
    GetEmbeddedTemplate name = none ↔ GetService name = none := by
  unfold GetEmbeddedTemplate GetService
  rw [lookupEntry_eq_none_iff, lookupEntry_eq_none_iff]
  have h : embeddedTemplates.map Prod.fst = AvailableServices.map Prod.fst := by decide
  rw [h]

theorem mem_embeddedTemplateKeys_iff (name : String) :
    name ∈ embeddedTemplateKeys ↔ GetEmbeddedTemplate name ≠ none := by
  unfold GetEmbeddedTemplate
  rw [Ne, lookupEntry_eq_none_iff, not_not]
  have h : embeddedTemplates.map Prod.fst = embeddedTemplateKeys := by decide
  rw [h]

theorem embeddedServiceLoop_err (cfg : Config) (services : List String) (file : String) :
    (embeddedServiceLoop cfg services file).2 = composeEmbeddedError services := by
  induction services generalizing file with
  | nil => rfl
  | cons a rest ih =>
    unfold embeddedServiceLoop composeEmbeddedError
    cases hs : GetService a with
    | none => rfl
    | some service =>
      cases ht : GetEmbeddedTemplate a with
      | none =>
        have hk : a ∉ embeddedTemplateKeys := by
          rw [mem_embeddedTemplateKeys_iff, ht]; simp
        simp [hk]
      | some parts =>
        have hk : a ∈ embeddedTemplateKeys := by
          rw [mem_embeddedTemplateKeys_iff, ht]; simp
        simp only [hk, if_true]
        exact ih _

theorem GenerateDockerComposeEmbedded_err (cfg : Config) :
    (GenerateDockerComposeEmbedded cfg).2 = composeEmbeddedError cfg.Services := by
  have h := embeddedServiceLoop_err cfg cfg.Services composeHeader
  unfold GenerateDockerComposeEmbedded
  cases hl : embeddedServiceLoop cfg cfg.Services composeHeader with
  | mk file e =>
    rw [hl] at h
    cases e with
    | none => exact h
    | some e => exact h

theorem composeEmbeddedError_known (services : List String)
    (h : ∀ s ∈ services, GetService s ≠ none) : composeEmbeddedError services = none := by
  induction services with
  | nil => rfl
  | cons a rest ih =>
    unfold composeEmbeddedError
    cases hs : GetService a with
    | none => exact absurd hs (h a (List.mem_cons_self _ _))
    | some service =>
      have hk : a ∈ embeddedTemplateKeys := by
        rw [mem_embeddedTemplateKeys_iff, Ne, GetEmbeddedTemplate_eq_none_iff, hs]; simp
      simp only [hk, if_true]
      exact ih (fun s hs => h s (List.mem_cons_of_mem _ hs))

theorem composeEmbeddedError_first_unknown (pre post : List String) (name : String)
    (hpre : ∀ s ∈ pre, GetService s ≠ none) (hname : GetService name = none) :
    composeEmbeddedError (pre ++ name :: post)
      = some (CmdError.composeUnknownService name) := by
  induction pre with
  | nil => simp [composeEmbeddedError, hname]
  | cons a rest ih =>
    rw [List.cons_append]
    unfold composeEmbeddedError
    cases hs : GetService a with
    | none => exact absurd hs (hpre a (List.mem_cons_self _ _))
    | some service =>
      have hk : a ∈ embeddedTemplateKeys := by
        rw [mem_embeddedTemplateKeys_iff, Ne, GetEmbeddedTemplate_eq_none_iff, hs]; simp
      simp only [hk, if_true]
      exact ih (fun s hs => hpre s (List.mem_cons_of_mem _ hs))

theorem fileServiceLoop_first_unknown
    (generateServiceTemplate : String → TemplateData → Option String) (cfg : Config)
    (pre post : List String) (name : String) (file : String)
    (hpre : ∀ s ∈ pre, ∃ service, GetService s = some service
      ∧ ∀ data, generateServiceTemplate service.Template data ≠ none)
    (hname : GetService name = none) :
    (fileServiceLoop generateServiceTemplate cfg (pre ++ name :: post) file).2
      = some (CmdError.composeUnknownService name) := by
  induction pre generalizing file with
  | nil => simp [fileServiceLoop, hname]
  | cons a rest ih =>
    rw [List.cons_append]
    unfold fileServiceLoop
    obtain ⟨service, hs, hgen⟩ := hpre a (List.mem_cons_self _ _)
    rw [hs]
    dsimp only
    split
    · rename_i hnone
      exact absurd hnone (hgen _)
    · exact ih _ (fun s hs => hpre s (List.mem_cons_of_mem _ hs))

theorem fileServiceLoop_first_failure
    (generateServiceTemplate : String → TemplateData → Option String) (cfg : Config)
    (pre post : List String) (name : String) (file : String)
    (hpre : ∀ s ∈ pre, ∃ service, GetService s = some service
      ∧ ∀ data, generateServiceTemplate service.Template data ≠ none)
    (hname : ∃ service, GetService name = some service
      ∧ ∀ data, generateServiceTemplate service.Template data = none) :
    (fileServiceLoop generateServiceTemplate cfg (pre ++ name :: post) file).2
      = some (CmdError.composeTemplateFailed name) := by
  induction pre generalizing file with
  | nil =>
    obtain ⟨service, hs, hgen⟩ := hname
    simp [fileServiceLoop, hs, hgen]
  | cons a rest ih =>
    rw [List.cons_append]
    unfold fileServiceLoop
    obtain ⟨service, hs, hgen⟩ := hpre a (List.mem_cons_self _ _)
    rw [hs]
    dsimp only
    split
    · rename_i hnone
      exact absurd hnone (hgen _)
    · exact ih _ (fun s hs => hpre s (List.mem_cons_of_mem _ hs))

theorem GenerateDockerCompose_err
    (generateServiceTemplate : String → TemplateData → Option String) (cfg : Config) :
    (GenerateDockerCompose generateServiceTemplate cfg).2
      = (fileServiceLoop generateServiceTemplate cfg cfg.Services composeHeader).2 := by
  unfold GenerateDockerCompose
  cases hl : fileServiceLoop generateServiceTemplate cfg cfg.Services composeHeader with
  | mk file e =>
    cases e with
    | none => rfl
    | some e => rfl

theorem lookupEntry_some_mem {α : Type} (name : String) (l : List (String × α)) (v : α)
    (h : lookupEntry name l = some v) : (name, v) ∈ l := by
  induction l with
  | nil => simp [lookupEntry] at h
  | cons kv rest ih =>
    obtain ⟨k, w⟩ := kv
    unfold lookupEntry at h
    by_cases hk : k = name
    · rw [if_pos hk] at h
      cases h
      subst hk
      exact List.mem_cons_self _ _
    · rw [if_neg hk] at h
      exact List.mem_cons_of_mem _ (ih h)

theorem composeEmbeddedError_ne_noTemplate (services : List String) (s : String) :
    composeEmbeddedError services ≠ some (CmdError.composeNoTemplate s) := by
  induction services with
  | nil => simp [composeEmbeddedError]
  | cons a rest ih =>
    unfold composeEmbeddedError
    cases hs : GetService a with
    | none => simp
    | some service =>
      have hk : a ∈ embeddedTemplateKeys := by
        rw [mem_embeddedTemplateKeys_iff, Ne, GetEmbeddedTemplate_eq_none_iff, hs]; simp
      simp only [hk, if_true]
      exact ih

set_option maxRecDepth 100000 in
theorem embeddedTemplates_contain_names :
    ∀ kv ∈ embeddedTemplates,
      templateText kv.2 ≠ "" ∧ stringsContains (templateText kv.2) kv.1 := by
  decide

/-- C15, the claim as stated fails: in a working directory without template files
`GenerateDockerCompose` on the services `mysql, invalid_service` returns the
template error of `mysql`, not the unknown-service error of `invalid_service`, the
first element that is not in the catalog. -/
theorem GenerateDockerCompose_template_error_first :
    staleConfig.Services = ["mysql", "invalid_service"]
      ∧ GetService "mysql" ≠ none
      ∧ GetService "invalid_service" = none
      ∧ (GenerateDockerCompose noTemplateFiles staleConfig).2
          = some (CmdError.composeTemplateFailed "mysql")
      ∧ (GenerateDockerCompose noTemplateFiles staleConfig).2
          ≠ some (CmdError.composeUnknownService "invalid_service") := by
  decide

/-- C15 as amended: when `name` is the first element of `cfg.services` that is not
in the catalog, `GenerateDockerComposeEmbedded` returns the unknown-service error
of `name`, and `GenerateDockerCompose` does so when `generateServiceTemplate`
succeeds for every element before `name` (so always when `name` is the first
element); `GenerateDockerComposeEmbedded` returns no error when every element of
`cfg.services` is in the catalog. -/
theorem compose_rejects_stale_config
    (generateServiceTemplate : String → TemplateData → Option String) (cfg : Config) :
    (∀ pre name post, cfg.Services = pre ++ name :: post →
        (∀ s ∈ pre, GetService s ≠ none) → GetService name = none →
        (GenerateDockerComposeEmbedded cfg).2 = some (CmdError.composeUnknownService name)
          ∧ ((∀ s ∈ pre, ∀ service, GetService s = some service →
                ∀ data, generateServiceTemplate service.Template data ≠ none) →
              (GenerateDockerCompose generateServiceTemplate cfg).2
                = some (CmdError.composeUnknownService name)))
      ∧ ((∀ s ∈ cfg.Services, GetService s ≠ none) →
          (GenerateDockerComposeEmbedded cfg).2 = none) := by
  constructor
  · intro pre name post hsplit hpre hname
    constructor
    · rw [GenerateDockerComposeEmbedded_err, hsplit]
      exact composeEmbeddedError_first_unknown pre post name hpre hname
    · intro hgen
      rw [GenerateDockerCompose_err, hsplit]
      apply fileServiceLoop_first_unknown
      · intro s hs
        cases hg : GetService s with
        | none => exact absurd hg (hpre s hs)
        | some service => exact ⟨service, rfl, hgen s hs service hg⟩
      · exact hname
  · intro hall
    rw [GenerateDockerComposeEmbedded_err]
    exact composeEmbeddedError_known _ hall

/-- Witness of C15 as amended: the stale configuration `mysql, invalid_service`,
with template files that can be read, and the configuration `mysql, redis`. -/
theorem compose_rejects_stale_config_witness :
    (GenerateDockerComposeEmbedded staleConfig).2
        = some (CmdError.composeUnknownService "invalid_service")
      ∧ (GenerateDockerCompose placeholderTemplateFiles staleConfig).2
        = some (CmdError.composeUnknownService "invalid_service")
      ∧ (GenerateDockerComposeEmbedded mysqlRedisConfig).2 = none :=
  ⟨((compose_rejects_stale_config placeholderTemplateFiles staleConfig).1
      ["mysql"] "invalid_service" [] rfl (by decide) (by decide)).1,
    ((compose_rejects_stale_config placeholderTemplateFiles staleConfig).1
      ["mysql"] "invalid_service" [] rfl (by decide) (by decide)).2
      (fun _ _ _ _ _ => by simp [placeholderTemplateFiles]),
    (compose_rejects_stale_config placeholderTemplateFiles mysqlRedisConfig).2 (by decide)⟩

/-- C20: embedded templates cover the catalog. `GetEmbeddedTemplate` returns an
error exactly for the names that are not keys of the catalog; the template text of
a catalog identifier is not empty and contains the identifier; and
`GenerateDockerComposeEmbedded` never returns the error of a missing template. -/
theorem embedded_templates_cover_catalog :
    (∀ name, GetEmbeddedTemplate name = none ↔ name ∉ GetServiceNames)
      ∧ (∀ name parts, GetEmbeddedTemplate name = some parts →
          templateText parts ≠ "" ∧ stringsContains (templateText parts) name)
      ∧ (∀ cfg s, (GenerateDockerComposeEmbedded cfg).2 ≠ some (CmdError.composeNoTemplate s)) := by
  refine ⟨?_, ?_, ?_⟩
  · intro name
    rw [GetEmbeddedTemplate_eq_none_iff, GetService_eq_none_iff]
  · intro name parts h
    exact embeddedTemplates_contain_names (name, parts)
      (lookupEntry_some_mem name embeddedTemplates parts h)
  · intro cfg s
    rw [GenerateDockerComposeEmbedded_err]
    exact composeEmbeddedError_ne_noTemplate _ s

/-! ## Lemmas on the volumes section -/

theorem stringJoin_cons (a : String) (l : List String) :
    String.join (a :: l) = a ++ String.join l := by
  apply String.ext
  simp

theorem mem_firstOccurrences (l : List String) (v : String) :
    v ∈ firstOccurrences l ↔ v ∈ l := by
  induction l with
  | nil => simp [firstOccurrences]
  | cons a rest ih =>
    unfold firstOccurrences
    by_cases h : v = a
    · simp [h]
    · simp [h, List.mem_filter, ih]

theorem firstOccurrences_nodup (l : List String) : (firstOccurrences l).Nodup := by
  induction l with
  | nil => simp [firstOccurrences]
  | cons a rest ih =>
    unfold firstOccurrences
    rw [List.nodup_cons]
    constructor
    · simp [List.mem_filter]
    · exact ih.filter _

theorem firstOccurrences_order (l : List String) :
    (firstOccurrences l).Pairwise (fun v w => l.indexOf v < l.indexOf w) := by
  induction l with
  | nil => simp [firstOccurrences]
  | cons a rest ih =>
    unfold firstOccurrences
    rw [List.pairwise_cons]
    constructor
    · intro w hw
      have hne : a ≠ w := by
        intro heq
        subst heq
        simp [List.mem_filter] at hw
      rw [List.indexOf_cons_self, List.indexOf_cons_ne _ hne]
      exact Nat.succ_pos _
    · have hsub : ((firstOccurrences rest).filter (fun w => decide (w ≠ a))).Pairwise
          (fun v w => rest.indexOf v < rest.indexOf w) := ih.filter _
      refine hsub.imp_of_mem ?_
      intro v w hv hw hlt
      have hva : a ≠ v := by
        intro heq; subst heq; simp [List.mem_filter] at hv
      have hwa : a ≠ w := by
        intro heq; subst heq; simp [List.mem_filter] at hw
      rw [List.indexOf_cons_ne _ hva, List.indexOf_cons_ne _ hwa]
      exact Nat.succ_lt_succ hlt

theorem writeVolumeOnce_foldl (l : List String) (out : String) (seen : GoMap Bool) :
    (l.foldl writeVolumeOnce (out, seen)).1
      = out ++ String.join
          (((firstOccurrences l).filter (fun v => decide (seen.getD v false = false))).map
            volumeEntry) := by
  induction l generalizing out seen with
  | nil =>
    apply String.ext
    simp [firstOccurrences]
  | cons a rest ih =>
    have hfirst : firstOccurrences (a :: rest)
        = a :: (firstOccurrences rest).filter (fun w => decide (w ≠ a)) := rfl
    rw [List.foldl_cons, hfirst]
    by_cases hseen : seen.getD a false = true
    · have hstep : writeVolumeOnce (out, seen) a = (out, seen) := by
        simp [writeVolumeOnce, hseen]
      rw [hstep, ih]
      congr 2
      rw [List.filter_cons_of_neg (by simp [hseen]), List.filter_filter]
      congr 1
      apply List.filter_congr
      intro w _
      by_cases hw : w = a
      · subst hw; simp [hseen]
      · simp [hw]
    · have hfalse : seen.getD a false = false := by simpa using hseen
      have hstep : writeVolumeOnce (out, seen) a
          = (out ++ "  " ++ a ++ ":\n", seen.set a true) := by
        simp [writeVolumeOnce, hfalse]
      rw [hstep, ih]
      rw [List.filter_cons_of_pos (by simp [hfalse]), List.map_cons, stringJoin_cons,
        List.filter_filter]
      have hfilter : (firstOccurrences rest).filter
            (fun v => decide ((seen.set a true).getD v false = false))
          = (firstOccurrences rest).filter
            (fun w => decide (seen.getD w false = false) && decide (w ≠ a)) := by
        apply List.filter_congr
        intro w _
        by_cases hw : w = a
        · subst hw; simp [GoMap.getD]
        · simp [GoMap.getD, hw]
      rw [hfilter]
      apply String.ext
      simp [volumeEntry, List.append_assoc]

theorem writeServiceVolumes_foldl (services : List String) (state : String × GoMap Bool) :
    services.foldl writeServiceVolumes state
      = (configuredVolumes services).foldl writeVolumeOnce state := by
  induction services generalizing state with
  | nil => rfl
  | cons a rest ih =>
    rw [List.foldl_cons, ih]
    unfold configuredVolumes writeServiceVolumes
    rw [List.flatMap_cons, List.foldl_append]

theorem mem_configuredVolumes (services : List String) (v : String) :
    v ∈ configuredVolumes services
      ↔ ∃ s ∈ services, ∃ service, GetService s = some service ∧ v ∈ service.Volumes := by
  unfold configuredVolumes
  rw [List.mem_flatMap]
  constructor
  · rintro ⟨s, hs, hv⟩
    cases hg : GetService s with
    | none => rw [hg] at hv; simp [Service.zero] at hv
    | some service =>
      rw [hg] at hv
      exact ⟨s, hs, service, hg, hv⟩
  · rintro ⟨s, hs, service, hg, hv⟩
    refine ⟨s, hs, ?_⟩
    rw [hg]
    exact hv

theorem embeddedServiceLoop_ends_line (cfg : Config) (services : List String) (file : String)
    (hfile : file.data.getLast? = some '\n') :
    (embeddedServiceLoop cfg services file).1.data.getLast? = some '\n' := by
  induction services generalizing file with
  | nil => exact hfile
  | cons a rest ih =>
    unfold embeddedServiceLoop
    cases hs : GetService a with
    | none => exact hfile
    | some service =>
      dsimp only
      cases ht : GetEmbeddedTemplate a with
      | none => exact hfile
      | some parts =>
        apply ih
        simp

theorem GenerateDockerComposeEmbedded_text (cfg : Config)
    (hknown : ∀ s ∈ cfg.Services, GetService s ≠ none) :
    (GenerateDockerComposeEmbedded cfg).1
      = (embeddedServiceLoop cfg cfg.Services composeHeader).1 ++ "volumes:\n"
          ++ String.join ((firstOccurrences (configuredVolumes cfg.Services)).map volumeEntry) := by
  have herr := embeddedServiceLoop_err cfg cfg.Services composeHeader
  rw [composeEmbeddedError_known _ hknown] at herr
  unfold GenerateDockerComposeEmbedded
  cases hl : embeddedServiceLoop cfg cfg.Services composeHeader with
  | mk file e =>
    rw [hl] at herr
    dsimp only at herr
    subst herr
    dsimp only
    rw [writeServiceVolumes_foldl, writeVolumeOnce_foldl]
    have hall : (firstOccurrences (configuredVolumes cfg.Services)).filter
          (fun v => decide ((GoMap.empty : GoMap Bool).getD v false = false))
        = firstOccurrences (configuredVolumes cfg.Services) := by
      apply List.filter_eq_self.2
      intro v _
      simp [GoMap.getD]
    rw [hall, String.append_assoc]

/-- C16: the volumes section is the duplicate-free union. When every configured
service is in the catalog, also when the services list repeats an identifier,
`GenerateDockerComposeEmbedded` returns no error and the text it writes is the
services part, which ends a line, then the line `volumes:`, then one entry for
each volume name of the configured services: no name twice, every name of a
configured service and no other, in the order in which the names first occur. -/
theorem compose_volumes_section (cfg : Config)
    (hknown : ∀ s ∈ cfg.Services, GetService s ≠ none) :
    (GenerateDockerComposeEmbedded cfg).2 = none
      ∧ (GenerateDockerComposeEmbedded cfg).1
          = (embeddedServiceLoop cfg cfg.Services composeHeader).1 ++ "volumes:\n"
              ++ String.join
                  ((firstOccurrences (configuredVolumes cfg.Services)).map volumeEntry)
      ∧ (embeddedServiceLoop cfg cfg.Services composeHeader).1.data.getLast? = some '\n'
      ∧ (firstOccurrences (configuredVolumes cfg.Services)).Nodup
      ∧ (∀ v, v ∈ firstOccurrences (configuredVolumes cfg.Services)
          ↔ ∃ s ∈ cfg.Services, ∃ service, GetService s = some service ∧ v ∈ service.Volumes)
      ∧ (firstOccurrences (configuredVolumes cfg.Services)).Pairwise
          (fun v w => (configuredVolumes cfg.Services).indexOf v
            < (configuredVolumes cfg.Services).indexOf w) := by
  refine ⟨?_, GenerateDockerComposeEmbedded_text cfg hknown, ?_, firstOccurrences_nodup _, ?_,
    firstOccurrences_order _⟩
  · rw [GenerateDockerComposeEmbedded_err]
    exact composeEmbeddedError_known _ hknown
  · exact embeddedServiceLoop_ends_line cfg cfg.Services composeHeader (by decide)
  · intro v
    rw [mem_firstOccurrences, mem_configuredVolumes]

/-- Witness of C16: the services `kafka, mysql, kafka`, which repeat Kafka. -/
theorem compose_volumes_section_witness :
    (∀ s ∈ repeatedKafkaConfig.Services, GetService s ≠ none)
      ∧ firstOccurrences (configuredVolumes repeatedKafkaConfig.Services)
          = ["kafka_data", "zookeeper_data", "mysql_data"]
      ∧ (GenerateDockerComposeEmbedded repeatedKafkaConfig).2 = none
      ∧ (GenerateDockerComposeEmbedded repeatedKafkaConfig).1
          = (embeddedServiceLoop repeatedKafkaConfig repeatedKafkaConfig.Services
                composeHeader).1 ++ "volumes:\n"
              ++ String.join
                  ((firstOccurrences (configuredVolumes repeatedKafkaConfig.Services)).map
                    volumeEntry) :=
  ⟨by decide, by decide, (compose_volumes_section repeatedKafkaConfig (by decide)).1,
    (compose_volumes_section repeatedKafkaConfig (by decide)).2.1⟩

/-! ## Lemmas on the lines of the compose text -/

theorem tmplExecute_cons (file : String) (part : TemplatePart) (rest : List TemplatePart)
    (data : TemplateData) :
    tmplExecute file (part :: rest) data
      = tmplExecute (file ++ executePart data part) rest data := rfl

theorem tmplExecute_extends (file : String) (parts : List TemplatePart) (data : TemplateData) :
    file.data <+: (tmplExecute file parts data).data := by
  induction parts generalizing file with
  | nil => exact List.prefix_refl _
  | cons part rest ih =>
    rw [tmplExecute_cons]
    refine List.IsPrefix.trans ?_ (ih _)
    rw [String.data_append]
    exact List.prefix_append _ _

theorem declaresLine_infix (line : String) (data : TemplateData) (parts : List TemplatePart)
    (atLineStart : Bool) (file : String)
    (hdecl : declaresLine line atLineStart parts = true)
    (hfile : atLineStart = true → file.data.getLast? = some '\n') :
    ("\n" ++ line ++ "\n").data <:+: (tmplExecute file parts data).data := by
  induction parts generalizing atLineStart file with
  | nil => simp [declaresLine] at hdecl
  | cons part rest ih =>
    rw [tmplExecute_cons]
    cases part with
    | text t =>
      simp only [declaresLine, Bool.or_eq_true, Bool.and_eq_true, decide_eq_true_eq] at hdecl
      rcases hdecl with ⟨hb, ht⟩ | hrec
      · obtain ⟨q, hq⟩ := List.getLast?_eq_some_iff.1 (hfile hb)
        have hin : ("\n" ++ line ++ "\n").data
            <:+: (file ++ executePart data (TemplatePart.text t)).data := by
          refine ⟨q, [], ?_⟩
          simp only [executePart, String.data_append, hq, ht, List.append_nil,
            List.append_assoc]
        exact hin.trans (tmplExecute_extends _ rest data).isInfix
      · apply ih _ _ hrec
        intro hnl
        have hnl2 : t.data.getLast? = some '\n' := by simpa using hnl
        simp [executePart, hnl2]
    | port =>
      simp only [declaresLine] at hdecl
      exact ih false _ hdecl (fun h => absurd h (by simp))
    | dataPath =>
      simp only [declaresLine] at hdecl
      exact ih false _ hdecl (fun h => absurd h (by simp))

theorem embeddedServiceLoop_extends (cfg : Config) (services : List String) (file : String) :
    file.data <+: (embeddedServiceLoop cfg services file).1.data := by
  induction services generalizing file with
  | nil => exact List.prefix_refl _
  | cons a rest ih =>
    unfold embeddedServiceLoop
    cases hs : GetService a with
    | none => exact List.prefix_refl _
    | some service =>
      dsimp only
      cases ht : GetEmbeddedTemplate a with
      | none => exact List.prefix_refl _
      | some parts =>
        dsimp only
        refine List.IsPrefix.trans ?_ (ih _)
        rw [String.data_append]
        exact (tmplExecute_extends _ _ _).trans (List.prefix_append _ _)

theorem embeddedServiceLoop_line (cfg : Config) (line s : String) (services : List String)
    (file : String)
    (hknown : ∀ t ∈ services, GetService t ≠ none)
    (hs : s ∈ services)
    (hdecl : ∀ parts, GetEmbeddedTemplate s = some parts → declaresLine line true parts = true)
    (hfile : file.data.getLast? = some '\n') :
    ("\n" ++ line ++ "\n").data <:+: (embeddedServiceLoop cfg services file).1.data := by
  induction services generalizing file with
  | nil => simp at hs
  | cons a rest ih =>
    unfold embeddedServiceLoop
    cases hg : GetService a with
    | none => exact absurd hg (hknown a (List.mem_cons_self _ _))
    | some service =>
      dsimp only
      cases ht : GetEmbeddedTemplate a with
      | none =>
        rw [GetEmbeddedTemplate_eq_none_iff, hg] at ht
        cases ht
      | some parts =>
        dsimp only
        by_cases hsa : s = a
        · subst hsa
          have hin := declaresLine_infix line
            ⟨if cfg.Ports.getD s 0 = 0 then service.DefaultPort else cfg.Ports.getD s 0,
              cfg.DataPath, cfg.Env⟩ parts true file (hdecl parts ht) (fun _ => hfile)
          refine hin.trans (List.IsPrefix.isInfix ?_)
          refine List.IsPrefix.trans ?_ (embeddedServiceLoop_extends cfg rest _)
          rw [String.data_append]
          exact List.prefix_append _ _
        · apply ih _ (fun t ht => hknown t (List.mem_cons_of_mem _ ht))
          · rcases List.mem_cons.1 hs with h | h
            · exact absurd h hsa
            · exact h
          · simp

theorem embeddedTemplates_declare_lines :
    ∀ kv ∈ embeddedTemplates,
      declaresLine ("  " ++ kv.1 ++ ":") true kv.2 = true
        ∧ declaresLine ("    container_name: dockenv-" ++ kv.1) true kv.2 = true := by
  decide

/-- C17: every configured service appears in the compose text with its container
identity. When every configured service is in the catalog and `s` is one of them,
`GenerateDockerComposeEmbedded` returns no error and the text it writes has the
line `  <s>:` and the line `    container_name: dockenv-<s>`, each starting after a
line break and closed by one. -/
theorem compose_text_has_service_lines (cfg : Config) (s : String)
    (hknown : ∀ t ∈ cfg.Services, GetService t ≠ none) (hs : s ∈ cfg.Services) :
    (GenerateDockerComposeEmbedded cfg).2 = none
      ∧ stringsContains (GenerateDockerComposeEmbedded cfg).1
          ("\n" ++ ("  " ++ s ++ ":") ++ "\n")
      ∧ stringsContains (GenerateDockerComposeEmbedded cfg).1
          ("\n" ++ ("    container_name: dockenv-" ++ s) ++ "\n") := by
  have hstart : (embeddedServiceLoop cfg cfg.Services composeHeader).1.data
      <+: (GenerateDockerComposeEmbedded cfg).1.data := by
    rw [GenerateDockerComposeEmbedded_text cfg hknown, String.append_assoc, String.data_append]
    exact List.prefix_append _ _
  have hheader : composeHeader.data.getLast? = some '\n' := by decide
  have hlines : ∀ parts, GetEmbeddedTemplate s = some parts →
      declaresLine ("  " ++ s ++ ":") true parts = true
        ∧ declaresLine ("    container_name: dockenv-" ++ s) true parts = true :=
    fun parts h => embeddedTemplates_declare_lines (s, parts)
      (lookupEntry_some_mem s embeddedTemplates parts h)
  refine ⟨?_, ?_, ?_⟩
  · rw [GenerateDockerComposeEmbedded_err]
    exact composeEmbeddedError_known _ hknown
  · exact (embeddedServiceLoop_line cfg _ s cfg.Services composeHeader hknown hs
      (fun parts h => (hlines parts h).1) hheader).trans hstart.isInfix
  · exact (embeddedServiceLoop_line cfg _ s cfg.Services composeHeader hknown hs
      (fun parts h => (hlines parts h).2) hheader).trans hstart.isInfix

/-- Witness of C17: the configuration of `TestGenerateDockerCompose` and its
service `redis`; the text has the strings the test looks for. -/
theorem compose_text_has_service_lines_witness :
    (∀ t ∈ mysqlRedisConfig.Services, GetService t ≠ none)
      ∧ "redis" ∈ mysqlRedisConfig.Services
      ∧ (GenerateDockerComposeEmbedded mysqlRedisConfig).2 = none
      ∧ stringsContains (GenerateDockerComposeEmbedded mysqlRedisConfig).1
          ("\n" ++ ("  " ++ "redis" ++ ":") ++ "\n")
      ∧ stringsContains (GenerateDockerComposeEmbedded mysqlRedisConfig).1
          ("\n" ++ ("    container_name: dockenv-" ++ "redis") ++ "\n") :=
  ⟨by decide, by decide,
    compose_text_has_service_lines mysqlRedisConfig "redis" (by decide) (by decide)⟩

/-! ## Profiles, Docker check and init -/

/-- C21, the code at the failing input: the profile `full` is found and holds five
identifiers; `elasticsearch` and `rabbitmq` are keys of the catalog and are not in
the list. -/
theorem full_profile_misses_services :
    GetProfileServices "full" = some ["mysql", "postgres", "redis", "mongodb", "kafka"]
      ∧ "elasticsearch" ∈ GetServiceNames
      ∧ "rabbitmq" ∈ GetServiceNames
      ∧ "elasticsearch" ∉ ["mysql", "postgres", "redis", "mongodb", "kafka"]
      ∧ "rabbitmq" ∉ ["mysql", "postgres", "redis", "mongodb", "kafka"]
      ∧ GetServiceNames.filter
          (fun s => decide (s ∉ ["mysql", "postgres", "redis", "mongodb", "kafka"]))
          = ["elasticsearch", "rabbitmq"] := by
  decide

theorem installInstructions_spec (a b c : Bool) :
    (installInstructions a b c = readyMessage ↔ (a && b && c) = true)
      ∧ (a = false → stringsContains (installInstructions a b c) "Docker is not installed")
      ∧ (a = true → c = false →
          stringsContains (installInstructions a b c) "Docker daemon is not running") := by
  cases a <;> cases b <;> cases c <;> decide

/-- C22: readiness and remediation text agree. For every `DockerInfo`, `IsReady` is
true exactly when `DockerInstalled`, `DockerComposeInstalled` and `DockerRunning`
are all true; `GetInstallInstructions` returns the message of a proper installation
exactly when `IsReady` is true; otherwise its text contains `Docker is not
installed` when Docker is missing and `Docker daemon is not running` when Docker is
installed and not running. -/
theorem readiness_matches_instructions (d : DockerInfo) :
    (d.IsReady = true ↔
        d.DockerInstalled = true ∧ d.DockerComposeInstalled = true ∧ d.DockerRunning = true)
      ∧ (d.GetInstallInstructions = readyMessage ↔ d.IsReady = true)
      ∧ (d.DockerInstalled = false →
          stringsContains d.GetInstallInstructions "Docker is not installed")
      ∧ (d.DockerInstalled = true → d.DockerRunning = false →
          stringsContains d.GetInstallInstructions "Docker daemon is not running") := by
  have h := installInstructions_spec d.DockerInstalled d.DockerComposeInstalled d.DockerRunning
  refine ⟨?_, h.1, h.2.1, h.2.2⟩
  simp [DockerInfo.IsReady, and_assoc]

/-- C23, the code at the failing input: MySQL is stored on port 3306 and every port
key is a service; `dockenv init --services redis` stores the services `redis` and
keeps the port entry of `mysql`, which is no longer a service. -/
theorem runInit_keeps_stale_port :
    PortsWithinServices mysqlOnlyConfig
      ∧ ValidateServices ["redis"] = none
      ∧ (runInit atoiDecimal dockerReady false mysqlOnlyConfig "" ["redis"] (Except.ok [])
          [] "").err = none
      ∧ (runInit atoiDecimal dockerReady false mysqlOnlyConfig "" ["redis"] (Except.ok [])
          [] "").stored.Services = ["redis"]
      ∧ (runInit atoiDecimal dockerReady false mysqlOnlyConfig "" ["redis"] (Except.ok [])
          [] "").stored.Ports "mysql" = some 3306
      ∧ ¬ PortsWithinServices
          (runInit atoiDecimal dockerReady false mysqlOnlyConfig "" ["redis"] (Except.ok [])
            [] "").stored := by
  refine ⟨PortsWithinServices_mysqlOnlyConfig, by decide, by decide, by decide, by decide, ?_⟩
  intro h
  have hmem := h "mysql" (by decide)
  revert hmem
  decide

theorem Profiles_valid :
    ∀ kv ∈ Profiles, kv.2 ≠ [] ∧ kv.2.Nodup ∧ ValidateServices kv.2 = none := by
  decide

/-- C27: profiles only reference catalog services. The list that
`GetProfileServices` returns for a profile name is not empty, has no repeated
identifier and is accepted by `ValidateServices`; so every service that the profile
mode of `runInit` selects is found in the catalog. -/
theorem profiles_reference_catalog (profileName : String) (l : List String)
    (h : GetProfileServices profileName = some l) :
    l ≠ [] ∧ l.Nodup ∧ ValidateServices l = none
      ∧ (∀ s ∈ l, GetService s ≠ none)
      ∧ (∀ servicesFlag interactive, profileName ≠ "" →
          initSelectServices profileName servicesFlag interactive = Except.ok l) := by
  have hv := Profiles_valid (profileName, l) (lookupEntry_some_mem profileName Profiles l h)
  refine ⟨hv.1, hv.2.1, hv.2.2, (ValidateServices_none l).1 hv.2.2, ?_⟩
  intro servicesFlag interactive hne
  simp [initSelectServices, hne, h]

/-- Witness of C27: the profile `spring`. -/
theorem profiles_reference_catalog_witness :
    GetProfileServices "spring" = some ["mysql", "kafka"]
      ∧ ["mysql", "kafka"] ≠ [] ∧ ["mysql", "kafka"].Nodup
      ∧ ValidateServices ["mysql", "kafka"] = none
      ∧ (∀ s ∈ ["mysql", "kafka"], GetService s ≠ none)
      ∧ (∀ servicesFlag interactive, "spring" ≠ "" →
          initSelectServices "spring" servicesFlag interactive
            = Except.ok ["mysql", "kafka"]) :=
  ⟨by decide, profiles_reference_catalog "spring" ["mysql", "kafka"] (by decide)⟩

/-! ## Lemmas on repeated and reverted additions -/

theorem addMutation_Env_eq_fold (cp : GoMap Int) (cfg : Config) (l : List String) :
    (addMutation cp cfg l).Env
      = l.foldl (fun e s => mergeEnvDefaults e (defaultEnv s)) cfg.Env := by
  induction l generalizing cfg with
  | nil => rfl
  | cons a rest ih =>
    rw [addMutation_cons, ih, addService_Env]
    rfl

theorem mergeEnvDefaults_not_key (env : GoMap String) (vars : List (String × String))
    (k : String) (h : k ∉ vars.map Prod.fst) : mergeEnvDefaults env vars k = env k := by
  rcases mergeEnvDefaults_cases env vars k with h1 | ⟨v, hv, _⟩
  · exact h1
  · exact absurd (List.mem_map.2 ⟨(k, v), hv, rfl⟩) h

theorem mergeEnvDefaults_sets (env : GoMap String) (vars : List (String × String))
    (k v : String) (hnd : (vars.map Prod.fst).Nodup) (hmem : (k, v) ∈ vars)
    (hempty : env.getD k "" = "") : mergeEnvDefaults env vars k = some v := by
  induction vars generalizing env with
  | nil => simp at hmem
  | cons kv rest ih =>
    rw [mergeEnvDefaults_cons]
    rw [List.map_cons, List.nodup_cons] at hnd
    rcases List.mem_cons.1 hmem with heq | hin
    · subst heq
      rw [if_pos hempty, mergeEnvDefaults_not_key _ _ _ hnd.1]
      simp
    · have hne : k ≠ kv.1 := by
        intro heq
        apply hnd.1
        rw [← heq]
        exact List.mem_map.2 ⟨(k, v), hin, rfl⟩
      apply ih _ hnd.2 hin
      by_cases hw : env.getD kv.1 "" = ""
      · rw [if_pos hw]
        simpa [GoMap.getD, hne] using hempty
      · rw [if_neg hw]
        exact hempty

theorem runAdd_noflags_stored (sscanfD : String → Option Int) (cfg : Config)
    (R : List String) (hvalid : ValidateServices R = none) :
    (runAdd sscanfD cfg R []).stored
      = addMutation GoMap.empty cfg (R.filter (fun s => decide (s ∉ cfg.Services))) :=
  runAdd_stored_of_ok sscanfD cfg R [] GoMap.empty hvalid rfl

/-- C28: add-then-remove restores the environment when keys do not overlap. For a
list `S` of catalog identifiers none of which is configured, and a configuration
whose environment has no default-env key of a service of `S`, `runAdd` with `S`
followed by a confirmed `runRemove` with `S` stores the environment of the start. -/
theorem add_then_remove_restores_env (sscanfD : String → Option Int) (cfg : Config)
    (S : List String) (force answer : Bool)
    (hcatalog : ∀ s ∈ S, GetService s ≠ none)
    (hnew : ∀ s ∈ S, s ∉ cfg.Services)
    (hkeys : ∀ s ∈ S, ∀ k ∈ defaultEnvKeys s, cfg.Env k = none)
    (hconfirm : force = true ∨ answer = true) :
    (runRemove (runAdd sscanfD cfg S []).stored S force answer).stored.Env = cfg.Env := by
  have hfilter : S.filter (fun s => decide (s ∉ cfg.Services)) = S :=
    List.filter_eq_self.2 (fun s hs => by simpa using hnew s hs)
  have hadd : (runAdd sscanfD cfg S []).stored = addMutation GoMap.empty cfg S := by
    have h := runAdd_noflags_stored sscanfD cfg S ((ValidateServices_none S).2 hcatalog)
    rwa [hfilter] at h
  have hsel : S.filter (fun s => decide (s ∈ (addMutation GoMap.empty cfg S).Services)) = S :=
    List.filter_eq_self.2 (fun s hs => by simp [addMutation_Services, hs])
  rw [hadd, runRemove_stored_of_confirmed _ _ _ _ hconfirm, hsel]
  funext k
  rw [removeMutation_Env]
  by_cases hk : ∃ s ∈ S, k ∈ defaultEnvKeys s
  · rw [if_pos hk]
    obtain ⟨s, hs, hin⟩ := hk
    exact (hkeys s hs k hin).symm
  · rw [if_neg hk]
    rcases addMutation_Env_cases GoMap.empty cfg S k with h | ⟨s, hs, v, hv, _⟩
    · exact h
    · exact absurd ⟨s, hs, List.mem_map.2 ⟨(k, v), hv, rfl⟩⟩ hk

/-- Witness of C28: Redis is added to and removed from a configuration that
overrides `DB_HOST`. -/
theorem add_then_remove_restores_env_witness :
    (∀ s ∈ ["redis"], ∀ k ∈ defaultEnvKeys s, customHostConfig.Env k = none)
      ∧ (runRemove (runAdd scanDecimal customHostConfig ["redis"] []).stored ["redis"]
          true false).stored.Env = customHostConfig.Env :=
  ⟨by decide,
    add_then_remove_restores_env scanDecimal customHostConfig ["redis"] true false
      (by decide) (by decide) (by decide) (Or.inl rfl)⟩

/-- C29: add is idempotent. For a valid request `R` with no port flag, a second
`runAdd` with `R` on the configuration that the first one stored reports every
element of `R` as already configured and none as new, returns no error, and stores
the configuration of the first run. -/
theorem runAdd_idempotent (sscanfD : String → Option Int) (cfg : Config) (R : List String)
    (hvalid : ValidateServices R = none) :
    (runAdd sscanfD (runAdd sscanfD cfg R []).stored R []).existingServices = R
      ∧ (runAdd sscanfD (runAdd sscanfD cfg R []).stored R []).newServices = []
      ∧ (runAdd sscanfD (runAdd sscanfD cfg R []).stored R []).err = none
      ∧ (runAdd sscanfD (runAdd sscanfD cfg R []).stored R []).stored
          = (runAdd sscanfD cfg R []).stored := by
  have hall : ∀ s ∈ R, s ∈ (runAdd sscanfD cfg R []).stored.Services := by
    intro s hs
    rw [runAdd_noflags_stored sscanfD cfg R hvalid, addMutation_Services]
    by_cases hin : s ∈ cfg.Services
    · exact List.mem_append_left _ hin
    · exact List.mem_append_right _ (List.mem_filter.2 ⟨hs, by simpa using hin⟩)
  have h1 : R.filter (fun s => decide (s ∈ (runAdd sscanfD cfg R []).stored.Services)) = R :=
    List.filter_eq_self.2 (fun s hs => by simpa using hall s hs)
  have h2 : R.filter (fun s => decide (s ∉ (runAdd sscanfD cfg R []).stored.Services)) = [] :=
    List.filter_eq_nil_iff.2 (fun s hs => by simpa using hall s hs)
  have hrun : runAdd sscanfD (runAdd sscanfD cfg R []).stored R []
      = ⟨(runAdd sscanfD cfg R []).stored, none, R, []⟩ := by
    generalize (runAdd sscanfD cfg R []).stored = stored1 at h1 h2
    unfold runAdd
    simp only [hvalid, splitRequested_eq, h1, h2, List.length_nil, if_true]
  rw [hrun]
  exact ⟨rfl, rfl, rfl, rfl⟩

/-- Witness of C29: the request `mysql redis` on a configuration with MySQL. -/
theorem runAdd_idempotent_witness :
    ValidateServices ["mysql", "redis"] = none
      ∧ (runAdd scanDecimal mysqlOnlyConfig ["mysql", "redis"] []).stored.Services
          = ["mysql", "redis"]
      ∧ (runAdd scanDecimal (runAdd scanDecimal mysqlOnlyConfig ["mysql", "redis"] []).stored
          ["mysql", "redis"] []).existingServices = ["mysql", "redis"]
      ∧ (runAdd scanDecimal (runAdd scanDecimal mysqlOnlyConfig ["mysql", "redis"] []).stored
          ["mysql", "redis"] []).newServices = []
      ∧ (runAdd scanDecimal (runAdd scanDecimal mysqlOnlyConfig ["mysql", "redis"] []).stored
          ["mysql", "redis"] []).err = none
      ∧ (runAdd scanDecimal (runAdd scanDecimal mysqlOnlyConfig ["mysql", "redis"] []).stored
          ["mysql", "redis"] []).stored
          = (runAdd scanDecimal mysqlOnlyConfig ["mysql", "redis"] []).stored :=
  ⟨by decide, by decide,
    runAdd_idempotent scanDecimal mysqlOnlyConfig ["mysql", "redis"] (by decide)⟩

/-- C30: environment defaults are independent of port overrides. For a valid
request and two lists of port flags that are both accepted, the two runs of
`runAdd` store the same environment. In particular, adding `mysql` with a flag
`mysql:<p>` to a configuration without `mysql` and without the key `DB_PORT` stores
`DB_PORT` with the value `3306` for every port `p`, while the stored port of `mysql`
is `p`. -/
theorem runAdd_env_ignores_ports (sscanfD : String → Option Int) (cfg : Config)
    (R flags1 flags2 : List String)
    (hvalid : ValidateServices R = none)
    (h1 : ∃ cp, parseCustomPorts sscanfD (R.filter (fun s => decide (s ∉ cfg.Services)))
      flags1 GoMap.empty = Except.ok cp)
    (h2 : ∃ cp, parseCustomPorts sscanfD (R.filter (fun s => decide (s ∉ cfg.Services)))
      flags2 GoMap.empty = Except.ok cp) :
    (runAdd sscanfD cfg R flags1).stored.Env = (runAdd sscanfD cfg R flags2).stored.Env
      ∧ (∀ portSpec portStr p, "mysql" ∉ cfg.Services → cfg.Env "DB_PORT" = none →
          stringsSplitColon portSpec = ["mysql", portStr] → sscanfD portStr = some p →
          (runAdd sscanfD cfg ["mysql"] [portSpec]).stored.Env "DB_PORT" = some "3306"
            ∧ (runAdd sscanfD cfg ["mysql"] [portSpec]).stored.Ports "mysql" = some p) := by
  obtain ⟨cp1, hcp1⟩ := h1
  obtain ⟨cp2, hcp2⟩ := h2
  constructor
  · rw [runAdd_stored_of_ok sscanfD cfg R flags1 cp1 hvalid hcp1,
      runAdd_stored_of_ok sscanfD cfg R flags2 cp2 hvalid hcp2,
      addMutation_Env_eq_fold, addMutation_Env_eq_fold]
  · intro portSpec portStr p hnew hport hsplit hscan
    have hfilter : ["mysql"].filter (fun s => decide (s ∉ cfg.Services)) = ["mysql"] :=
      List.filter_eq_self.2 (fun s hs => by
        rw [List.mem_singleton.1 hs]
        simpa using hnew)
    have hparse : parseCustomPorts sscanfD
        (["mysql"].filter (fun s => decide (s ∉ cfg.Services))) [portSpec] GoMap.empty
        = Except.ok (GoMap.empty.set "mysql" p) := by
      rw [hfilter]
      simp [parseCustomPorts, hsplit, hscan, Contains]
    rw [runAdd_stored_of_ok sscanfD cfg ["mysql"] [portSpec] _ (by decide) hparse, hfilter]
    constructor
    · have hnd : ((defaultEnv "mysql").map Prod.fst).Nodup := by decide
      have hmem : ("DB_PORT", "3306") ∈ defaultEnv "mysql" := by decide
      have hempty : cfg.Env.getD "DB_PORT" "" = "" := by simp [GoMap.getD, hport]
      rw [addMutation_Env_eq_fold, List.foldl_cons, List.foldl_nil]
      exact mergeEnvDefaults_sets cfg.Env (defaultEnv "mysql") "DB_PORT" "3306" hnd hmem hempty
    · rw [addMutation_Ports]
      simp [assignedPort]

/-- Witness of C30: Redis and MongoDB are added to a configuration with MySQL, once
without a port flag and once with Redis on port 6380; and MySQL is added to the
empty configuration on port 3307. -/
theorem runAdd_env_ignores_ports_witness :
    ValidateServices ["redis", "mongodb"] = none
      ∧ (runAdd scanDecimal mysqlOnlyConfig ["redis", "mongodb"] []).stored.Env
          = (runAdd scanDecimal mysqlOnlyConfig ["redis", "mongodb"] ["redis:6380"]).stored.Env
      ∧ (runAdd scanDecimal mysqlOnlyConfig ["redis", "mongodb"] ["redis:6380"]).stored.Ports
          "redis" = some 6380
      ∧ (runAdd scanDecimal (emptyConfig "/var/lib/dockenv") ["mysql"]
          ["mysql:3307"]).stored.Env "DB_PORT" = some "3306"
      ∧ (runAdd scanDecimal (emptyConfig "/var/lib/dockenv") ["mysql"]
          ["mysql:3307"]).stored.Ports "mysql" = some 3307 :=
  ⟨by decide,
    (runAdd_env_ignores_ports scanDecimal mysqlOnlyConfig ["redis", "mongodb"] []
      ["redis:6380"] (by decide) ⟨GoMap.empty, rfl⟩ ⟨GoMap.empty.set "redis" 6380, rfl⟩).1,
    by decide,
    (runAdd_env_ignores_ports scanDecimal (emptyConfig "/var/lib/dockenv") ["mysql"] [] []
      (by decide) ⟨GoMap.empty, rfl⟩ ⟨GoMap.empty, rfl⟩).2
      "mysql:3307" "3307" 3307 (by decide) (by decide) (by decide) (by decide)⟩

/-! ## Lemmas on the reference rendering -/

theorem tmplExecute_eq_join (file : String) (parts : List TemplatePart) (data : TemplateData) :
    tmplExecute file parts data = file ++ String.join (parts.map (executePart data)) := by
  induction parts generalizing file with
  | nil =>
    apply String.ext
    simp [tmplExecute]
  | cons part rest ih =>
    rw [tmplExecute_cons, ih]
    apply String.ext
    simp [List.append_assoc]

theorem embeddedServiceLoop_eq_join (cfg : Config) (services : List String) (file : String)
    (hknown : ∀ s ∈ services, GetService s ≠ none) :
    (embeddedServiceLoop cfg services file).1
      = file ++ String.join (services.map (fun s => renderedBlock cfg s ++ "\n")) := by
  induction services generalizing file with
  | nil =>
    apply String.ext
    simp [embeddedServiceLoop]
  | cons a rest ih =>
    unfold embeddedServiceLoop
    cases hg : GetService a with
    | none => exact absurd hg (hknown a (List.mem_cons_self _ _))
    | some service =>
      dsimp only
      cases ht : GetEmbeddedTemplate a with
      | none =>
        rw [GetEmbeddedTemplate_eq_none_iff, hg] at ht
        cases ht
      | some parts =>
        dsimp only
        rw [ih _ (fun s hs => hknown s (List.mem_cons_of_mem _ hs)), tmplExecute_eq_join]
        have hblock : renderedBlock cfg a
            = String.join (parts.map (executePart
                ⟨if cfg.Ports.getD a 0 = 0 then service.DefaultPort else cfg.Ports.getD a 0,
                  cfg.DataPath, cfg.Env⟩)) := by
          simp [renderedBlock, composePort, ht, hg]
        rw [List.map_cons, stringJoin_cons, hblock]
        apply String.ext
        simp [List.append_assoc]

set_option maxRecDepth 100000 in
theorem mysqlRedis_text_facts :
    (GenerateDockerComposeEmbedded mysqlRedisConfig).1 ≠ blankLineCompose mysqlRedisConfig
      ∧ stringsContains (GenerateDockerComposeEmbedded mysqlRedisConfig).1
          "      retries: 10\n  redis:\n" := by
  decide

/-- C26, the claim as stated fails: for the services `mysql, redis` the text that
`GenerateDockerComposeEmbedded` writes is not the rendering with a blank line after
each block; the last line of the MySQL block is followed at once by the line
`  redis:`. -/
theorem compose_text_has_no_blank_line :
    (∀ s ∈ mysqlRedisConfig.Services, GetService s ≠ none)
      ∧ (GenerateDockerComposeEmbedded mysqlRedisConfig).1 ≠ blankLineCompose mysqlRedisConfig
      ∧ stringsContains (GenerateDockerComposeEmbedded mysqlRedisConfig).1
          "      retries: 10\n  redis:\n" :=
  ⟨by decide, mysqlRedis_text_facts⟩

/-- C26 as amended: when every configured service is in the catalog, the text that
`GenerateDockerComposeEmbedded` writes is the header (`version: '3.8'`, a blank
line, `services:`), then for each service of `cfg.services` in stored order its
embedded template with `Port` replaced by the entry of `cfg.ports` when that is not
zero and by the default port of the catalog otherwise, and `DataPath` replaced by
`cfg.dataPath`, each block closed by one line break (no blank line follows it),
then the volumes section. -/
theorem compose_text_eq_reference (cfg : Config)
    (hknown : ∀ s ∈ cfg.Services, GetService s ≠ none) :
    (GenerateDockerComposeEmbedded cfg).2 = none
      ∧ (GenerateDockerComposeEmbedded cfg).1 = referenceCompose cfg := by
  constructor
  · rw [GenerateDockerComposeEmbedded_err]
    exact composeEmbeddedError_known _ hknown
  · rw [GenerateDockerComposeEmbedded_text cfg hknown,
      embeddedServiceLoop_eq_join cfg cfg.Services composeHeader hknown]
    unfold referenceCompose volumesSection
    have hheader : composeHeader = "version: \x273.8\x27\n\nservices:\n" := by decide
    rw [hheader]
    apply String.ext
    simp [List.append_assoc]

/-- Witness of C26 as amended: the configuration of `TestGenerateDockerCompose`. -/
theorem compose_text_eq_reference_witness :
    (∀ s ∈ mysqlRedisConfig.Services, GetService s ≠ none)
      ∧ (GenerateDockerComposeEmbedded mysqlRedisConfig).2 = none
      ∧ (GenerateDockerComposeEmbedded mysqlRedisConfig).1 = referenceCompose mysqlRedisConfig :=
  ⟨by decide, compose_text_eq_reference mysqlRedisConfig (by decide)⟩

/-! ## Lemmas on the environment file -/

theorem textLines_no_break (cs : List Char) : ∀ line ∈ textLines cs, '\n' ∉ line := by
  induction cs with
  | nil => simp [textLines]
  | cons c rest ih =>
    unfold textLines
    by_cases hc : c = '\n'
    · rw [if_pos hc]
      intro line hl
      rcases List.mem_cons.1 hl with h | h
      · rw [h]; simp
      · exact ih line h
    · rw [if_neg hc]
      cases hr : textLines rest with
      | nil =>
        intro line hl
        simp only [List.mem_singleton] at hl
        rw [hl]
        simpa using fun h => hc h.symm
      | cons l ls =>
        rw [hr] at ih
        intro line hl
        rcases List.mem_cons.1 hl with h | h
        · rw [h]
          intro hmem
          rcases List.mem_cons.1 hmem with h1 | h1
          · exact hc h1.symm
          · exact ih l (List.mem_cons_self _ _) h1
        · exact ih line (List.mem_cons_of_mem _ h)

theorem textLines_cons_other (c : Char) (cs : List Char) (hc : c ≠ '\n') :
    textLines (c :: cs)
      = match textLines cs with
        | [] => [[c]]
        | line :: lines => (c :: line) :: lines := by
  simp only [textLines, hc, if_false]

theorem textLines_line_append (line rest : List Char) (h : '\n' ∉ line) :
    textLines (line ++ '\n' :: rest) = line :: textLines rest := by
  induction line with
  | nil => simp [textLines]
  | cons c l ih =>
    have hc : c ≠ '\n' := fun e => h (by rw [e]; exact List.mem_cons_self _ _)
    have hl : '\n' ∉ l := fun e => h (List.mem_cons_of_mem _ e)
    rw [List.cons_append, textLines_cons_other _ _ hc, ih hl]

theorem textLines_unlines (lines : List (List Char)) (h : ∀ line ∈ lines, '\n' ∉ line) :
    textLines (unlines lines) = lines := by
  induction lines with
  | nil => rfl
  | cons l ls ih =>
    have hstep : unlines (l :: ls) = l ++ '\n' :: unlines ls := by
      simp [unlines]
    rw [hstep, textLines_line_append _ _ (h l (List.mem_cons_self _ _)),
      ih (fun line hl => h line (List.mem_cons_of_mem _ hl))]

theorem takeWhile_key (key rest : List Char) (h : '=' ∉ key) :
    (key ++ '=' :: rest).takeWhile (fun c => decide (c ≠ '=')) = key := by
  induction key with
  | nil => simp
  | cons c l ih =>
    have hc : c ≠ '=' := fun e => h (by rw [e]; exact List.mem_cons_self _ _)
    have hl : '=' ∉ l := fun e => h (List.mem_cons_of_mem _ e)
    rw [List.cons_append, List.takeWhile_cons_of_pos (by simpa using hc), ih hl]

theorem envLineKey_entry (key value : List Char) (heq : '=' ∉ key)
    (hhash : key.head? ≠ some '#') :
    envLineKey (key ++ '=' :: value) = some key := by
  unfold envLineKey
  have hhead : (key ++ '=' :: value).head? ≠ some '#' := by
    cases key with
    | nil => simp
    | cons c l => simpa using hhash
  rw [if_neg hhead, if_pos (by simp), takeWhile_key key value heq]

theorem envLineKey_some (line key : List Char) (h : envLineKey line = some key) :
    '=' ∉ key ∧ key.head? ≠ some '#' ∧ ('\n' ∉ line → '\n' ∉ key) := by
  unfold envLineKey at h
  by_cases hhash : line.head? = some '#'
  · rw [if_pos hhash] at h
    cases h
  · rw [if_neg hhash] at h
    by_cases heq : '=' ∈ line
    · rw [if_pos heq] at h
      have hk : key = line.takeWhile (fun c => decide (c ≠ '=')) := (Option.some.inj h).symm
      refine ⟨?_, ?_, ?_⟩
      · intro hmem
        rw [hk] at hmem
        have := List.mem_takeWhile_imp hmem
        simp at this
      · rw [hk]
        cases line with
        | nil => simp
        | cons c l =>
          by_cases hc : c = '='
          · simp [hc]
          · rw [List.takeWhile_cons_of_pos (by simpa using hc)]
            simpa using hhash
      · intro hline hmem
        rw [hk] at hmem
        exact hline ((List.takeWhile_sublist _).subset hmem)
    · rw [if_neg heq] at h
      cases h

theorem mergeEnvLine_of_none (newVars : List (String × String)) (line : List Char)
    (hk : envLineKey line = none) : mergeEnvLine newVars line = line := by
  simp only [mergeEnvLine, hk]

theorem mergeEnvLine_of_absent (newVars : List (String × String)) (line key : List Char)
    (hk : envLineKey line = some key) (hv : lookupEntry (String.mk key) newVars = none) :
    mergeEnvLine newVars line = line := by
  simp only [mergeEnvLine, hk, hv]

theorem mergeEnvLine_of_present (newVars : List (String × String)) (line key : List Char)
    (value : String) (hk : envLineKey line = some key)
    (hv : lookupEntry (String.mk key) newVars = some value) :
    mergeEnvLine newVars line = key ++ '=' :: value.data := by
  simp only [mergeEnvLine, hk, hv]

theorem envLineKey_mergeEnvLine (newVars : List (String × String)) (line : List Char) :
    envLineKey (mergeEnvLine newVars line) = envLineKey line := by
  cases hk : envLineKey line with
  | none => rw [mergeEnvLine_of_none _ _ hk, hk]
  | some key =>
    cases hv : lookupEntry (String.mk key) newVars with
    | none => rw [mergeEnvLine_of_absent _ _ _ hk hv, hk]
    | some value =>
      obtain ⟨heq, hhash, _⟩ := envLineKey_some line key hk
      rw [mergeEnvLine_of_present _ _ _ _ hk hv]
      exact envLineKey_entry key value.data heq hhash

theorem mergeEnvLine_idem (newVars : List (String × String)) (line : List Char) :
    mergeEnvLine newVars (mergeEnvLine newVars line) = mergeEnvLine newVars line := by
  have hkey := envLineKey_mergeEnvLine newVars line
  cases hk : envLineKey line with
  | none =>
    have h1 := mergeEnvLine_of_none newVars line hk
    rw [h1, h1]
  | some key =>
    cases hv : lookupEntry (String.mk key) newVars with
    | none =>
      have h1 := mergeEnvLine_of_absent newVars line key hk hv
      rw [h1, h1]
    | some value =>
      rw [hk] at hkey
      rw [mergeEnvLine_of_present newVars _ key value hkey hv,
        mergeEnvLine_of_present newVars line key value hk hv]

theorem lookupEntry_of_mem (newVars : List (String × String)) (k v : String)
    (hnd : (newVars.map Prod.fst).Nodup) (hmem : (k, v) ∈ newVars) :
    lookupEntry k newVars = some v := by
  induction newVars with
  | nil => simp at hmem
  | cons kv rest ih =>
    obtain ⟨k0, v0⟩ := kv
    rw [List.map_cons, List.nodup_cons] at hnd
    unfold lookupEntry
    rcases List.mem_cons.1 hmem with heq | hin
    · cases heq
      simp
    · have hne : k0 ≠ k := by
        intro e
        apply hnd.1
        rw [e]
        exact List.mem_map.2 ⟨(k, v), hin, rfl⟩
      rw [if_neg hne]
      exact ih hnd.2 hin

theorem mergeEnvLine_entry (newVars : List (String × String)) (kv : String × String)
    (hnd : (newVars.map Prod.fst).Nodup) (hmem : kv ∈ newVars) (hfits : EnvEntryFits kv) :
    mergeEnvLine newVars (kv.1.data ++ '=' :: kv.2.data) = kv.1.data ++ '=' :: kv.2.data := by
  have hl : lookupEntry (String.mk kv.1.data) newVars = some kv.2 :=
    lookupEntry_of_mem newVars kv.1 kv.2 hnd hmem
  exact mergeEnvLine_of_present newVars _ kv.1.data kv.2
    (envLineKey_entry kv.1.data kv.2.data hfits.2.1 hfits.2.2.1) hl

theorem unlines_cons (line : List Char) (lines : List (List Char)) :
    unlines (line :: lines) = line ++ '\n' :: unlines lines := by
  simp [unlines]

theorem unlines_append (xs ys : List (List Char)) :
    unlines (xs ++ ys) = unlines xs ++ unlines ys := by
  simp [unlines]

theorem mem_unlines_infix (line : List Char) (lines : List (List Char)) (h : line ∈ lines) :
    (line ++ ['\n']) <:+: unlines lines := by
  obtain ⟨s, t, hst⟩ := List.append_of_mem h
  refine ⟨unlines s, unlines t, ?_⟩
  rw [hst, unlines_append, unlines_cons]
  simp

theorem mergeEnvLines_no_break (cs : List Char) (newVars : List (String × String))
    (hfits : ∀ kv ∈ newVars, EnvEntryFits kv) :
    ∀ line ∈ mergeEnvLines (textLines cs) newVars, '\n' ∉ line := by
  intro line hl
  unfold mergeEnvLines at hl
  rcases List.mem_append.1 hl with h | h
  · obtain ⟨l0, hl0, hm⟩ := List.mem_map.1 h
    have hl0nb := textLines_no_break cs l0 hl0
    cases hk : envLineKey l0 with
    | none =>
      rw [mergeEnvLine_of_none _ _ hk] at hm
      rw [← hm]; exact hl0nb
    | some key =>
      cases hv : lookupEntry (String.mk key) newVars with
      | none =>
        rw [mergeEnvLine_of_absent _ _ _ hk hv] at hm
        rw [← hm]; exact hl0nb
      | some value =>
        rw [mergeEnvLine_of_present _ _ _ _ hk hv] at hm
        have hkey := (envLineKey_some l0 key hk).2.2 hl0nb
        have hval := (hfits _ (lookupEntry_some_mem _ newVars value hv)).2.2.2
        rw [← hm]
        intro hmem
        rcases List.mem_append.1 hmem with h1 | h1
        · exact hkey h1
        · rcases List.mem_cons.1 h1 with h2 | h2
          · cases h2
          · exact hval h2
  · unfold appendedEnvLines at h
    obtain ⟨kv, hkv, hm⟩ := List.mem_map.1 h
    have hf := hfits kv (List.mem_filter.1 hkv).1
    rw [← hm]
    intro hmem
    rcases List.mem_append.1 hmem with h1 | h1
    · exact hf.1 h1
    · rcases List.mem_cons.1 h1 with h2 | h2
      · cases h2
      · exact hf.2.2.2 h2

theorem mergeEnvLines_fixed (lines : List (List Char)) (newVars : List (String × String))
    (hnd : (newVars.map Prod.fst).Nodup) (hfits : ∀ kv ∈ newVars, EnvEntryFits kv) :
    mergeEnvLines (mergeEnvLines lines newVars) newVars = mergeEnvLines lines newVars := by
  have hmap : (mergeEnvLines lines newVars).map (mergeEnvLine newVars)
      = mergeEnvLines lines newVars := by
    conv_rhs => rw [← List.map_id (mergeEnvLines lines newVars)]
    apply List.map_congr_left
    intro line hl
    unfold mergeEnvLines at hl
    rcases List.mem_append.1 hl with h | h
    · obtain ⟨l0, _, hm⟩ := List.mem_map.1 h
      rw [← hm]
      exact mergeEnvLine_idem newVars l0
    · unfold appendedEnvLines at h
      obtain ⟨kv, hkv, hm⟩ := List.mem_map.1 h
      have hin := (List.mem_filter.1 hkv).1
      rw [← hm]
      exact mergeEnvLine_entry newVars kv hnd hin (hfits kv hin)
  have happ : appendedEnvLines newVars (mergeEnvLines lines newVars) = [] := by
    unfold appendedEnvLines
    rw [List.map_eq_nil_iff, List.filter_eq_nil_iff]
    intro kv hkv
    have hpresent : some kv.1.data ∈ (mergeEnvLines lines newVars).map envLineKey := by
      unfold mergeEnvLines
      rw [List.map_append, List.mem_append]
      by_cases hold : some kv.1.data ∈ lines.map envLineKey
      · left
        rw [List.map_map]
        obtain ⟨l0, hl0, hk⟩ := List.mem_map.1 hold
        exact List.mem_map.2 ⟨l0, hl0, by
          rw [Function.comp_apply, envLineKey_mergeEnvLine, hk]⟩
      · right
        refine List.mem_map.2 ⟨kv.1.data ++ '=' :: kv.2.data, ?_, ?_⟩
        · unfold appendedEnvLines
          exact List.mem_map.2 ⟨kv, List.mem_filter.2 ⟨hkv, by simpa using hold⟩, rfl⟩
        · exact envLineKey_entry kv.1.data kv.2.data (hfits kv hkv).2.1 (hfits kv hkv).2.2.1
    simpa using hpresent
  have hdef : ∀ ls, mergeEnvLines ls newVars
      = ls.map (mergeEnvLine newVars) ++ appendedEnvLines newVars ls := fun _ => rfl
  rw [hdef (mergeEnvLines lines newVars), hmap, happ, List.append_nil]

/-- The entries that fit are exactly those of section 4.4, "each as a new
`key=value` line": the text `key=value` closed by a line break is one line, and that
line is read back as the `key=value` line of this key. -/
theorem EnvEntryFits_iff (kv : String × String) :
    EnvEntryFits kv ↔
      textLines (kv.1.data ++ '=' :: kv.2.data ++ ['\n']) = [kv.1.data ++ '=' :: kv.2.data]
        ∧ envLineKey (kv.1.data ++ '=' :: kv.2.data) = some kv.1.data := by
  constructor
  · intro h
    refine ⟨?_, envLineKey_entry kv.1.data kv.2.data h.2.1 h.2.2.1⟩
    have hnb : '\n' ∉ kv.1.data ++ '=' :: kv.2.data := by
      intro hmem
      rcases List.mem_append.1 hmem with h1 | h1
      · exact h.1 h1
      · rcases List.mem_cons.1 h1 with h2 | h2
        · cases h2
        · exact h.2.2.2 h2
    exact textLines_line_append _ [] hnb
  · intro h
    have hnb : '\n' ∉ kv.1.data ++ '=' :: kv.2.data :=
      textLines_no_break _ _ (by rw [h.1]; exact List.mem_singleton.2 rfl)
    obtain ⟨heq, hhash, _⟩ := envLineKey_some _ _ h.2
    exact ⟨fun e => hnb (List.mem_append_left _ e), heq, hhash,
      fun e => hnb (List.mem_append_right _ (List.mem_cons_of_mem _ e))⟩

/-- Remark on the reach of the model: section 4.4 does not say how an entry is
written whose text `key=value` is not one line. Here the value is written as it is,
and for the one variable `NOTE` with the value `a`, line break, `b` the second merge
reads the line `b` as a line of its own. This is a fact about the model outside
the entries of `EnvEntryFits`, and `utils.CreateEnvFile` is not among the sources to
compare it with. -/
theorem renderEnvFile_twice_differs :
    renderEnvFile "" [("NOTE", "a\nb")] = "NOTE=a\nb\n"
      ∧ renderEnvFile (renderEnvFile "" [("NOTE", "a\nb")]) [("NOTE", "a\nb")]
          = "NOTE=a\nb\nb\n"
      ∧ renderEnvFile (renderEnvFile "" [("NOTE", "a\nb")]) [("NOTE", "a\nb")]
          ≠ renderEnvFile "" [("NOTE", "a\nb")] := by
  decide

/-- C24: the merge of the environment file is idempotent. For every existing text
and every variable map (the list of its entries: keys pairwise distinct, each entry
written as one `key=value` line, see `EnvEntryFits_iff`), merging the map into the
result of merging it into the text gives the same text as merging it once. -/
theorem renderEnvFile_idempotent (existingText : String) (newVars : List (String × String))
    (hnd : (newVars.map Prod.fst).Nodup) (hfits : ∀ kv ∈ newVars, EnvEntryFits kv) :
    renderEnvFile (renderEnvFile existingText newVars) newVars
      = renderEnvFile existingText newVars := by
  unfold renderEnvFile
  rw [textLines_unlines _ (mergeEnvLines_no_break existingText.data newVars hfits),
    mergeEnvLines_fixed _ newVars hnd hfits]

/-- Witness of C24: the file and the variables of `TestCreateEnvFile`. -/
theorem renderEnvFile_idempotent_witness :
    (testEnvVars.map Prod.fst).Nodup
      ∧ (∀ kv ∈ testEnvVars, EnvEntryFits kv)
      ∧ renderEnvFile (renderEnvFile testEnvText testEnvVars) testEnvVars
          = renderEnvFile testEnvText testEnvVars :=
  ⟨by decide, by unfold EnvEntryFits; decide,
    renderEnvFile_idempotent testEnvText testEnvVars (by decide)
      (by unfold EnvEntryFits; decide)⟩

theorem entry_line_mem (lines : List (List Char)) (newVars : List (String × String))
    (kv : String × String) (hnd : (newVars.map Prod.fst).Nodup) (hmem : kv ∈ newVars) :
    (kv.1.data ++ '=' :: kv.2.data) ∈ mergeEnvLines lines newVars := by
  unfold mergeEnvLines
  rw [List.mem_append]
  by_cases hold : some kv.1.data ∈ lines.map envLineKey
  · left
    obtain ⟨l0, hl0, hk⟩ := List.mem_map.1 hold
    have hl : lookupEntry (String.mk kv.1.data) newVars = some kv.2 :=
      lookupEntry_of_mem newVars kv.1 kv.2 hnd hmem
    exact List.mem_map.2 ⟨l0, hl0, mergeEnvLine_of_present newVars l0 kv.1.data kv.2 hk hl⟩
  · right
    unfold appendedEnvLines
    exact List.mem_map.2 ⟨kv, List.mem_filter.2 ⟨hmem, by simpa using hold⟩, rfl⟩

/-- C25: the merge preserves unmanaged content. The merged text is the lines of the
existing text, each merged in place, followed by the appended lines. A line of the
existing text that has no key (a comment, a blank line) or whose key is not in `V`
is in the merged text unchanged; a line whose key is in `V` becomes `key=V[key]`;
and for every entry of `V` the line `key=value` is in the merged text, appended at
the end when the key is the key of no existing line. -/
theorem renderEnvFile_preserves (existingText : String) (newVars : List (String × String))
    (hnd : (newVars.map Prod.fst).Nodup) :
    (renderEnvFile existingText newVars).data
        = unlines ((textLines existingText.data).map (mergeEnvLine newVars)
            ++ appendedEnvLines newVars (textLines existingText.data))
      ∧ (∀ line ∈ textLines existingText.data,
          (envLineKey line = none
            ∨ ∃ key, envLineKey line = some key ∧ lookupEntry (String.mk key) newVars = none) →
          mergeEnvLine newVars line = line
            ∧ stringsContains (renderEnvFile existingText newVars) (String.mk (line ++ ['\n'])))
      ∧ (∀ line ∈ textLines existingText.data, line.head? = some '#' →
          envLineKey line = none)
      ∧ (∀ line ∈ textLines existingText.data, ∀ key value, envLineKey line = some key →
          lookupEntry (String.mk key) newVars = some value →
          mergeEnvLine newVars line = key ++ '=' :: value.data)
      ∧ (∀ kv ∈ newVars,
          stringsContains (renderEnvFile existingText newVars) (kv.1 ++ "=" ++ kv.2 ++ "\n"))
      ∧ (∀ kv ∈ newVars, some kv.1.data ∉ (textLines existingText.data).map envLineKey →
          (kv.1.data ++ '=' :: kv.2.data)
            ∈ appendedEnvLines newVars (textLines existingText.data)) := by
  refine ⟨rfl, ?_, ?_, ?_, ?_, ?_⟩
  · intro line hl hun
    have hsame : mergeEnvLine newVars line = line := by
      rcases hun with hk | ⟨key, hk, hv⟩
      · exact mergeEnvLine_of_none _ _ hk
      · exact mergeEnvLine_of_absent _ _ _ hk hv
    refine ⟨hsame, ?_⟩
    apply mem_unlines_infix
    unfold mergeEnvLines
    exact List.mem_append_left _ (List.mem_map.2 ⟨line, hl, hsame⟩)
  · intro line _ hhash
    simp [envLineKey, hhash]
  · intro line _ key value hk hv
    exact mergeEnvLine_of_present _ _ _ _ hk hv
  · intro kv hkv
    have h := mem_unlines_infix _ _
      (entry_line_mem (textLines existingText.data) newVars kv hnd hkv)
    have hdata : (kv.1 ++ "=" ++ kv.2 ++ "\n").data = (kv.1.data ++ '=' :: kv.2.data) ++ ['\n'] := by
      simp [String.data_append]
    unfold stringsContains
    rw [hdata]
    exact h
  · intro kv hkv hold
    unfold appendedEnvLines
    exact List.mem_map.2 ⟨kv, List.mem_filter.2 ⟨hkv, by simpa using hold⟩, rfl⟩

/-- Witness of C25: the file and the variables of `TestCreateEnvFile`: the two
comments, `DB_PORT` and `EXISTING_VAR` are kept, `DB_HOST` is updated in place, and
`REDIS_HOST` and `REDIS_PORT` are appended. -/
theorem renderEnvFile_preserves_witness :
    (testEnvVars.map Prod.fst).Nodup
      ∧ renderEnvFile testEnvText testEnvVars
          = "# Database configuration\nDB_HOST=127.0.0.1\nDB_PORT=3306\n# Comment to preserve\nEXISTING_VAR=value\nREDIS_HOST=127.0.0.1\nREDIS_PORT=6379\n"
      ∧ stringsContains (renderEnvFile testEnvText testEnvVars)
          (String.mk ("# Comment to preserve".data ++ ['\n']))
      ∧ stringsContains (renderEnvFile testEnvText testEnvVars)
          ("REDIS_HOST" ++ "=" ++ "127.0.0.1" ++ "\n") :=
  ⟨by decide, by decide,
    ((renderEnvFile_preserves testEnvText testEnvVars (by decide)).2.1
      "# Comment to preserve".data (by decide) (Or.inl (by decide))).2,
    (renderEnvFile_preserves testEnvText testEnvVars (by decide)).2.2.2.2.1
      ("REDIS_HOST", "127.0.0.1") (by decide)⟩

end Dockenv
